import Mathlib

/-!
Verification of the Tikun pipeline backend (`tikun_orchestrator.py` and the
`sefirot/` stage modules) against its natural-language specification.

The Python code is shallowly embedded:
* Python dicts that flow between stages are modelled as insertion-ordered
  association lists `Rec := List (String × Val)` over a universal value type
  `Val` (mirroring the JSON-ish payloads the stages exchange).
* LLM calls are modelled as oracles: a stage's `generate` + parse step is an
  `Except String _` value supplied from outside (an exception carries its
  message string).
* Python `float` arithmetic on scores is modelled with `ℚ`; the score
  formulas only add, multiply, divide and compare, so `ℚ` is faithful for
  the bound/cap/threshold properties proved here.
* Wall-clock durations and timestamps are inputs of the model (a duration
  parameter, and a fixed placeholder for timestamp strings), since they are
  not derivable from the data flow.
-/

/-- Universal value type for the Python dict payloads exchanged by stages. -/
inductive Val where
  | vnull : Val
  | vbool (b : Bool) : Val
  | vint (n : Int) : Val
  | vrat (q : ℚ) : Val
  | vstr (s : String) : Val
  | vlist (xs : List Val) : Val
  | vdict (fs : List (String × Val)) : Val

/-- A stage result / Python dict: insertion-ordered association list. -/
abbrev Rec' : Type := List (String × Val)

/-- First value bound to a key, like Python `d[k]` / `k in d` tests. -/
def recLookup (r : Rec') (k : String) : Option Val :=
  match r with
  | [] => none
  | (k', v) :: rest => if k' = k then some v else recLookup rest k

/-- Python `'error' in result`: dicts produced by a failed stage carry this key. -/
def hasError (r : Rec') : Bool :=
  (recLookup r "error").isSome

/-! ## Orchestrator (`tikun_orchestrator.py`)

`TikunOrchestrator.process` runs the ten sefirot in a fixed order, passing a
context dict that accumulates every previous stage's result.  A stage here is
an oracle `String → String → Rec' option-with-exception`: given its name,
the scenario and the accumulated context it either returns a result dict or
raises (modelled by `Except.error msg`). -/

/-- Behaviour of the stage objects held by the orchestrator: for a stage name,
a scenario and the accumulated context, either a result dict or an exception. -/
abbrev StageFun : Type := String → String → Rec' → Except String Rec'

/-- The fixed pipeline order of `TikunOrchestrator.process`. -/
def stageOrder : List String :=
  ["keter", "chochmah", "binah", "chesed", "gevurah",
   "tiferet", "netzach", "hod", "yesod", "malchut"]

/-- `TikunOrchestrator._execute_sefira`: run one stage, converting any raised
exception into an error dict `{'sefira': name, 'error': str(e), 'timestamp': ...}`. -/
def executeSefira (stages : StageFun) (name scenario : String) (ctx : Rec') : Rec' :=
  match stages name scenario ctx with
  | Except.ok r => r
  | Except.error e =>
      [("sefira", Val.vstr name), ("error", Val.vstr e), ("timestamp", Val.vstr "")]

/-- The sequential body of `TikunOrchestrator.process`: for each stage in
order, execute it and append its result to both the results map and the
context (the source stores the same dict in `results['sefirot_results']`
and in `context`, so the two maps coincide and are modelled once). -/
def runStages (stages : StageFun) (scenario : String) : List String → Rec' → Rec'
  | [], acc => acc
  | n :: ns, acc =>
      runStages stages scenario ns
        (acc ++ [(n, Val.vdict (executeSefira stages n scenario acc))])

/-- The `sefirot_results` map built by `TikunOrchestrator.process`. -/
def sefirotResults (stages : StageFun) (scenario : String) : Rec' :=
  runStages stages scenario stageOrder []

/-- `TikunOrchestrator._assess_pipeline_quality`. -/
def assessPipelineQuality (successful : Nat) (avgScore : ℚ) : String :=
  if successful < 10 then "incomplete"
  else if 85 ≤ avgScore then "exceptional"
  else if 70 ≤ avgScore then "high"
  else if 55 ≤ avgScore then "moderate"
  else "low"

/-- A stage entry counts as successful when its dict has no `'error'` key
(`'error' not in r` in the source). -/
def successfulCount (results : Rec') : Nat :=
  (results.filter (fun p =>
    match p.2 with
    | Val.vdict d => ¬ hasError d
    | _ => true)).length

/-- Numeric read of a key with default `0`, like `r.get(key, 0)` feeding
Python arithmetic (the stages store their key scores as numbers). -/
def getNum (r : Rec') (k : String) : ℚ :=
  match recLookup r k with
  | some (Val.vint n) => (n : ℚ)
  | some (Val.vrat q) => q
  | _ => 0

/-- Key-score extraction of `_calculate_pipeline_metrics`: one representative
score per selected stage, taken only when that stage succeeded. -/
def keyScores (results : Rec') : List (String × ℚ) :=
  (match recLookup results "keter" with
   | some (Val.vdict d) =>
       if hasError d then [] else [("keter_alignment", getNum d "alignment_score")]
   | _ => []) ++
  (match recLookup results "binah" with
   | some (Val.vdict d) =>
       if hasError d then [] else [("binah_depth", getNum d "contextual_depth_score")]
   | _ => []) ++
  (match recLookup results "tiferet" with
   | some (Val.vdict d) =>
       if hasError d then [] else [("tiferet_harmony", getNum d "harmony_score")]
   | _ => []) ++
  (match recLookup results "yesod" with
   | some (Val.vdict d) =>
       if hasError d then [] else [("yesod_integration", getNum d "integration_score")]
   | _ => [])

/-- Aggregated metrics of `TikunOrchestrator._calculate_pipeline_metrics`. -/
structure PipelineMetrics where
  total_sefirot : Nat
  successful_sefirot : Nat
  failed_sefirot : Nat
  success_rate : ℚ
  total_duration_seconds : ℚ
  key_scores : List (String × ℚ)
  average_score : ℚ
  pipeline_quality : String

/-- `TikunOrchestrator._calculate_pipeline_metrics` (duration is an input of
the model; rounding of reported rates is immaterial to the claims below and
is omitted from the record fields, which hold the exact rationals). -/
def calculatePipelineMetrics (results : Rec') (duration : ℚ) : PipelineMetrics :=
  let total := results.length
  let successful := successfulCount results
  let scores := keyScores results
  let avgScore : ℚ :=
    if scores.isEmpty then 0 else (scores.map Prod.snd).sum / (scores.length : ℚ)
  { total_sefirot := total
    successful_sefirot := successful
    failed_sefirot := total - successful
    success_rate := (successful : ℚ) / (total : ℚ) * 100
    total_duration_seconds := duration
    key_scores := scores
    average_score := avgScore
    pipeline_quality := assessPipelineQuality successful avgScore }

/-- The result bundle returned by `TikunOrchestrator.process`. -/
structure PipelineResult where
  scenario : String
  sefirot_results : Rec'
  pipeline_metrics : PipelineMetrics
  errors : List Val

/-- `TikunOrchestrator.process`: run all ten stages, then compute pipeline
metrics; `errors` is initialised to `[]` and never appended to. -/
def orchestratorProcess (stages : StageFun) (scenario : String) (duration : ℚ) :
    PipelineResult :=
  let res := sefirotResults stages scenario
  { scenario := scenario
    sefirot_results := res
    pipeline_metrics := calculatePipelineMetrics res duration
    errors := [] }


/-! Structural lemmas about the sequential stage loop. -/

/-- The accumulated results so far are a stable prefix of the final results. -/
theorem runStages_take_acc (stages : StageFun) (scenario : String) :
    ∀ (ns : List String) (acc : Rec'),
      (runStages stages scenario ns acc).take acc.length = acc := by
  intro ns
  induction ns with
  | nil => intro acc; simp [runStages]
  | cons n ns ih =>
      intro acc
      rw [runStages]
      have h1 := ih (acc ++ [(n, Val.vdict (executeSefira stages n scenario acc))])
      have h2 : (runStages stages scenario ns
          (acc ++ [(n, Val.vdict (executeSefira stages n scenario acc))])).take acc.length =
          ((runStages stages scenario ns
            (acc ++ [(n, Val.vdict (executeSefira stages n scenario acc))])).take
              (acc ++ [(n, Val.vdict (executeSefira stages n scenario acc))]).length).take
                acc.length := by
        rw [List.take_take]
        congr 1
        simp
      rw [h2, h1]
      simp

/-- The keys of the produced results are the accumulator's keys followed by
the remaining stage names, in order. -/
theorem runStages_keys (stages : StageFun) (scenario : String) :
    ∀ (ns : List String) (acc : Rec'),
      (runStages stages scenario ns acc).map Prod.fst =
        acc.map Prod.fst ++ ns := by
  intro ns
  induction ns with
  | nil => intro acc; simp [runStages]
  | cons n ns ih =>
      intro acc
      rw [runStages, ih]
      simp

theorem runStages_length (stages : StageFun) (scenario : String)
    (ns : List String) (acc : Rec') :
    (runStages stages scenario ns acc).length = acc.length + ns.length := by
  have h := congrArg List.length (runStages_keys stages scenario ns acc)
  simpa using h

/-- Each stage's entry is its own execution on exactly the context accumulated
by all stages before it. -/
theorem runStages_step (stages : StageFun) (scenario : String) :
    ∀ (ns : List String) (acc : Rec') (i : Nat) (h : i < ns.length),
      (runStages stages scenario ns acc).take (acc.length + i + 1) =
        (runStages stages scenario ns acc).take (acc.length + i) ++
          [(ns.get ⟨i, h⟩,
            Val.vdict (executeSefira stages (ns.get ⟨i, h⟩) scenario
              ((runStages stages scenario ns acc).take (acc.length + i))))] := by
  intro ns
  induction ns with
  | nil => intro acc i h; simp at h
  | cons n ns ih =>
      intro acc i h
      match i with
      | 0 =>
          rw [runStages]
          have hpre := runStages_take_acc stages scenario ns
            (acc ++ [(n, Val.vdict (executeSefira stages n scenario acc))])
          have hlen : (acc ++ [(n, Val.vdict (executeSefira stages n scenario acc))]).length
              = acc.length + 1 := by simp
          rw [hlen] at hpre
          have hacc : (runStages stages scenario ns
              (acc ++ [(n, Val.vdict (executeSefira stages n scenario acc))])).take acc.length
              = acc := by
            rw [show acc.length = min acc.length (acc.length + 1) by omega,
              ← List.take_take, hpre]
            simp
          rw [show acc.length + 0 + 1 = acc.length + 1 by omega,
            show acc.length + 0 = acc.length by omega, hpre, hacc]
          simp
      | i + 1 =>
          rw [runStages]
          have h' : i < ns.length := by simpa using h
          have := ih (acc ++ [(n, Val.vdict (executeSefira stages n scenario acc))]) i h'
          have hlen : (acc ++ [(n, Val.vdict (executeSefira stages n scenario acc))]).length
              = acc.length + 1 := by simp
          rw [hlen] at this
          rw [show acc.length + 1 + i = acc.length + (i + 1) by omega] at this
          simpa using this

/-- C1: the results map of `orchestratorProcess` has exactly the ten fixed
stage keys in pipeline order. -/
theorem sefirotResults_keys (stages : StageFun) (scenario : String) :
    (sefirotResults stages scenario).map Prod.fst = stageOrder := by
  have h := runStages_keys stages scenario stageOrder []
  simpa [sefirotResults] using h

theorem sefirotResults_step (stages : StageFun) (scenario : String)
    (i : Nat) (h : i < 10) :
    (sefirotResults stages scenario).take (i + 1) =
      (sefirotResults stages scenario).take i ++
        [(stageOrder.get ⟨i, by simpa [stageOrder] using h⟩,
          Val.vdict (executeSefira stages
            (stageOrder.get ⟨i, by simpa [stageOrder] using h⟩) scenario
            ((sefirotResults stages scenario).take i)))] := by
  have h' : i < stageOrder.length := by simpa [stageOrder] using h
  have := runStages_step stages scenario stageOrder [] i h'
  simpa [sefirotResults] using this

/-- A concrete stage behaviour where only `gevurah` raises, used to witness
the orchestrator theorems on explicit inputs. -/
def mixedStages : StageFun := fun name _ _ =>
  if name = "gevurah" then Except.error "ProviderTimeoutError: timeout"
  else Except.ok [("status", Val.vstr "ok")]

/-- C1: for every scenario and every behaviour of the per-stage gateways
(including a stage raising an arbitrary exception), `orchestratorProcess`
returns a `sefirot_results` map with exactly the 10 fixed stage keys in
pipeline order; each stage is executed with the context accumulated by all
previous stages; a raising stage is recorded as a dict carrying an `error`
field; and the pipeline itself never raises (it is a total function). -/
theorem c1_pipeline_shape (stages : StageFun) (scenario : String) (duration : ℚ) :
    ((orchestratorProcess stages scenario duration).sefirot_results.map Prod.fst
        = stageOrder)
    ∧ (∀ (i : Nat) (h : i < 10),
        (orchestratorProcess stages scenario duration).sefirot_results.take (i + 1) =
          (orchestratorProcess stages scenario duration).sefirot_results.take i ++
            [(stageOrder.get ⟨i, by simpa [stageOrder] using h⟩,
              Val.vdict (executeSefira stages
                (stageOrder.get ⟨i, by simpa [stageOrder] using h⟩) scenario
                ((orchestratorProcess stages scenario duration).sefirot_results.take i)))])
    ∧ (∀ (name : String) (ctx : Rec') (e : String),
        stages name scenario ctx = Except.error e →
          recLookup (executeSefira stages name scenario ctx) "error"
            = some (Val.vstr e)) := by
  refine ⟨?_, ?_, ?_⟩
  · exact sefirotResults_keys stages scenario
  · intro i h
    exact sefirotResults_step stages scenario i h
  · intro name ctx e he
    simp [executeSefira, he, recLookup]

/-- C1 witness: the theorem applied to a concrete behaviour in which stage 5
(`gevurah`) raises a timeout. -/
theorem c1_pipeline_shape_witness :
    ((4 < 10 ∧
      (orchestratorProcess mixedStages "test scenario" 0).sefirot_results.take 5 =
        (orchestratorProcess mixedStages "test scenario" 0).sefirot_results.take 4 ++
          [("gevurah", Val.vdict (executeSefira mixedStages "gevurah" "test scenario"
            ((orchestratorProcess mixedStages "test scenario" 0).sefirot_results.take 4)))]) ∧
    (mixedStages "gevurah" "test scenario" [] =
        Except.error "ProviderTimeoutError: timeout" ∧
      recLookup (executeSefira mixedStages "gevurah" "test scenario" []) "error"
        = some (Val.vstr "ProviderTimeoutError: timeout"))) ∧
    (orchestratorProcess mixedStages "test scenario" 0).sefirot_results.map Prod.fst
      = stageOrder := by
  refine ⟨⟨⟨by decide, ?_⟩, rfl, ?_⟩, (c1_pipeline_shape mixedStages "test scenario" 0).1⟩
  · have h := (c1_pipeline_shape mixedStages "test scenario" 0).2.1 4 (by decide)
    simpa [stageOrder] using h
  · exact (c1_pipeline_shape mixedStages "test scenario" 0).2.2 "gevurah" [] _ rfl

/-- C10: the `errors` list of the returned result is always the empty list:
it is initialised empty and no code path appends to it, under any combination
of stage successes and failures. -/
theorem c10_errors_always_empty (stages : StageFun) (scenario : String) (duration : ℚ) :
    (orchestratorProcess stages scenario duration).errors = [] := rfl

/-- C7: pipeline quality is derived from the successful-stage count and the
average key score via fixed bands, with completeness gating quality: fewer
than 10 successes caps the label at `"incomplete"` regardless of the average
score, and the top label `"exceptional"` requires all 10 successes together
with an average of at least 85. -/
theorem c7_quality_gating :
    (∀ (successful : Nat) (avg : ℚ), successful < 10 →
        assessPipelineQuality successful avg = "incomplete")
    ∧ (∀ (successful : Nat) (avg : ℚ),
        assessPipelineQuality successful avg = "exceptional" ↔
          (10 ≤ successful ∧ 85 ≤ avg))
    ∧ (∀ (stages : StageFun) (scenario : String) (duration : ℚ),
        (orchestratorProcess stages scenario duration).pipeline_metrics.pipeline_quality =
          assessPipelineQuality
            (successfulCount (orchestratorProcess stages scenario duration).sefirot_results)
            (orchestratorProcess stages scenario duration).pipeline_metrics.average_score)
    ∧ (∀ (stages : StageFun) (scenario : String) (duration : ℚ),
        successfulCount (orchestratorProcess stages scenario duration).sefirot_results < 10 →
          (orchestratorProcess stages scenario duration).pipeline_metrics.pipeline_quality
            = "incomplete") := by
  have hlab : ∀ (successful : Nat) (avg : ℚ), successful < 10 →
      assessPipelineQuality successful avg = "incomplete" := by
    intro s avg h
    simp [assessPipelineQuality, h]
  have hexc : ∀ (successful : Nat) (avg : ℚ),
      assessPipelineQuality successful avg = "exceptional" ↔
        (10 ≤ successful ∧ 85 ≤ avg) := by
    intro s avg
    unfold assessPipelineQuality
    split_ifs with h1 h2 h3 h4 <;> simp_all
  have hm0 : ∀ (results : Rec') (d : ℚ),
      (calculatePipelineMetrics results d).pipeline_quality =
        assessPipelineQuality (successfulCount results)
          ((calculatePipelineMetrics results d).average_score) := fun _ _ => rfl
  have hp : ∀ (stages : StageFun) (scenario : String) (duration : ℚ),
      (orchestratorProcess stages scenario duration).pipeline_metrics =
        calculatePipelineMetrics
          (orchestratorProcess stages scenario duration).sefirot_results duration :=
    fun _ _ _ => rfl
  have hm : ∀ (stages : StageFun) (scenario : String) (duration : ℚ),
      (orchestratorProcess stages scenario duration).pipeline_metrics.pipeline_quality =
        assessPipelineQuality
          (successfulCount (orchestratorProcess stages scenario duration).sefirot_results)
          (orchestratorProcess stages scenario duration).pipeline_metrics.average_score := by
    intro stages scenario duration
    rw [hp]
    exact hm0 _ _
  refine ⟨hlab, hexc, hm, ?_⟩
  intro stages scenario duration h
  rw [hm stages scenario duration]
  exact hlab _ _ h

/-- C7 witness: applied at a run in which one stage fails (9 successes), and
at explicit band values. -/
theorem c7_quality_gating_witness :
    (9 < 10 ∧ assessPipelineQuality 9 (100 : ℚ) = "incomplete")
    ∧ assessPipelineQuality 10 (90 : ℚ) = "exceptional"
    ∧ (successfulCount (orchestratorProcess mixedStages "s" 0).sefirot_results < 10 ∧
        (orchestratorProcess mixedStages "s" 0).pipeline_metrics.pipeline_quality
          = "incomplete") := by
  have hres : (orchestratorProcess mixedStages "s" 0).sefirot_results
      = sefirotResults mixedStages "s" := rfl
  have hcount : successfulCount (sefirotResults mixedStages "s") = 9 := by decide
  have hlt : successfulCount (orchestratorProcess mixedStages "s" 0).sefirot_results < 10 := by
    rw [hres]
    omega
  exact ⟨⟨by decide, c7_quality_gating.1 9 100 (by decide)⟩,
    (c7_quality_gating.2.1 10 90).mpr ⟨by decide, by norm_num⟩, hlt,
    c7_quality_gating.2.2.2 mixedStages "s" 0 hlt⟩

/-! ## Stage 1: Keter (`sefirot/keter.py`)

`Keter.validate` loops up to `max_retries = 3` times; each iteration calls
`llm.generate` then `llm.parse_json_response` and post-processes the parsed
scores.  One iteration's interaction with the LLM is modelled as a
`KeterAttempt` oracle value: the generate call raising (provider/timeout
errors), the parse step raising, or a successfully parsed payload. -/

/-- Python whitespace class `\s` (ASCII part, as used on LLM text here). -/
def pyIsSpace (c : Char) : Bool :=
  c = ' ' ∨ c = '\t' ∨ c = '\n' ∨ c = '\r' ∨ c = Char.ofNat 11 ∨ c = Char.ofNat 12

/-- Decimal digit run to a number (value of `c` is `c.toNat - 48`). -/
def digitsVal (ds : List Char) : Nat :=
  ds.foldl (fun acc c => acc * 10 + (c.toNat - 48)) 0

/-- Python `int(s)` on a string: optional surrounding whitespace, optional
sign, then one or more decimal digits; anything else raises `ValueError`
(modelled as `none`). -/
def pyIntChars (s : List Char) : Option Int :=
  let t := ((s.dropWhile pyIsSpace).reverse.dropWhile pyIsSpace).reverse
  match t with
  | '-' :: ds =>
      if ds ≠ [] ∧ ds.all Char.isDigit then some (-(digitsVal ds : Int)) else none
  | '+' :: ds =>
      if ds ≠ [] ∧ ds.all Char.isDigit then some ((digitsVal ds : Int)) else none
  | ds =>
      if ds ≠ [] ∧ ds.all Char.isDigit then some ((digitsVal ds : Int)) else none

/-- Python `int(s)` over `String`. -/
def pyInt? (s : String) : Option Int := pyIntChars s.data

/-- Python `round(q, ndigits)` on the exact rational value (banker's
rounding: ties go to the even neighbour). -/
def pyRound (q : ℚ) (ndigits : Nat) : ℚ :=
  let m : ℚ := q * (10 : ℚ) ^ ndigits
  let fl : Int := ⌊m⌋
  let fr : ℚ := m - (fl : ℚ)
  let n : Int :=
    if fr < 1/2 then fl
    else if 1/2 < fr then fl + 1
    else if fl % 2 = 0 then fl else fl + 1
  (n : ℚ) / (10 : ℚ) ^ ndigits

/-- A sub-score as found in the parsed `result['scores']` dict: the LLM may
return an integer or a string. -/
inductive ScoreV where
  | sint (n : Int) : ScoreV
  | sstr (s : String) : ScoreV
deriving DecidableEq

/-- Keter's score normalisation: `int(value)` per entry, keeping the value
unchanged when the conversion raises (`except (ValueError, TypeError)`). -/
def normalizeScore : ScoreV → ScoreV
  | .sint n => .sint n
  | .sstr s =>
      match pyInt? s with
      | some n => .sint n
      | none => .sstr s

/-- Python `sum(values)` over the normalised scores: `0 + v₁ + v₂ + ⋯`;
adding a leftover string to an int raises `TypeError`. -/
def sumScoresAux : Int → List ScoreV → Except String Int
  | acc, [] => .ok acc
  | acc, .sint n :: rest => sumScoresAux (acc + n) rest
  | _, .sstr _ :: _ => .error "TypeError: unsupported operand type(s) for +: 'int' and 'str'"

/-- One corruption entry of the parsed payload (`severity` models
`c.get('severity', 'minor')`, so a missing key is the string `"minor"`). -/
structure Corruption where
  ctype : String
  severity : String
  description : String
deriving DecidableEq

/-- `Keter._assess_corruption_severity`. -/
def assessCorruptionSeverity (cs : List Corruption) : String :=
  if cs.isEmpty then "none"
  else if cs.any (fun c => c.severity = "critical") then "critical"
  else if cs.any (fun c => c.severity = "moderate") then "moderate"
  else "minor"

/-- Embeds a score value into `Val` for the result dict. -/
def scoreVal : ScoreV → Val
  | .sint n => .vint n
  | .sstr s => .vstr s

/-- Embeds a corruption entry into `Val`. -/
def corruptionVal (c : Corruption) : Val :=
  .vdict [("type", .vstr c.ctype), ("severity", .vstr c.severity),
    ("description", .vstr c.description)]

/-- Outcome of one retry iteration's LLM interaction in `Keter.validate`:
`generate` raised (provider/timeout error), `parse_json_response` raised,
or a parsed payload was obtained. -/
inductive KeterAttempt where
  | genFail (msg : String) : KeterAttempt
  | parseFail (msg : String) : KeterAttempt
  | parsed (scores : List (String × ScoreV)) (corruptions : List Corruption)
      (reasoning : String) : KeterAttempt

/-- The success dict built by `Keter.validate` (timestamp is a placeholder and
the activation counter is modelled at its first activation). -/
def keterSuccess (scores : List (String × ScoreV)) (corruptions : List Corruption)
    (reasoning : String) (total : Int) (attempt : Nat) : Rec' :=
  let alignment : ℚ := ((total : ℚ) + 50) / 100
  let severity := assessCorruptionSeverity corruptions
  [("sefira", Val.vstr "keter"),
   ("sefira_number", Val.vint 1),
   ("hebrew_name", Val.vstr "כתר"),
   ("scores", Val.vdict (scores.map fun p => (p.1, scoreVal p.2))),
   ("alignment_score", Val.vrat (pyRound alignment 4)),
   ("alignment_percentage", Val.vrat (pyRound (alignment * 100) 2)),
   ("corruptions", Val.vlist (corruptions.map corruptionVal)),
   ("corruption_severity", Val.vstr severity),
   ("manifestation_valid", Val.vbool (decide ((3 : ℚ)/5 ≤ alignment) && decide (severity ≠ "critical"))),
   ("threshold_met", Val.vbool (decide ((3 : ℚ)/5 ≤ alignment))),
   ("reasoning", Val.vstr reasoning),
   ("timestamp", Val.vstr ""),
   ("model_used", Val.vstr "gemini-2.0-flash-exp"),
   ("activation_count", Val.vint 1),
   ("attempts", Val.vint (attempt + 1))]

/-- The error dict returned once all retries are exhausted. -/
def keterErrorDict (maxRetries : Nat) (lastError : String) : Rec' :=
  [("sefira", Val.vstr "keter"),
   ("error", Val.vstr ("Failed after " ++ toString maxRetries ++ " attempts: " ++ lastError)),
   ("manifestation_valid", Val.vbool false),
   ("timestamp", Val.vstr ""),
   ("attempts", Val.vint maxRetries)]

/-- The body of one iteration of `Keter.validate`'s retry loop (everything
inside the `try`): on a parsed payload, normalise the scores, sum them
(possibly raising `TypeError` on a non-numeric leftover string) and build the
success dict; any raised exception becomes `Except.error`. -/
def keterTryOnce (a : KeterAttempt) (attempt : Nat) : Except String Rec' :=
  match a with
  | .genFail m => .error m
  | .parseFail m => .error m
  | .parsed scores corrs reasoning =>
      let ns := scores.map (fun p => (p.1, normalizeScore p.2))
      match sumScoresAux 0 (ns.map Prod.snd) with
      | .error m => .error m
      | .ok total => .ok (keterSuccess ns corrs reasoning total attempt)

/-- The retry loop of `Keter.validate`: `for attempt in range(max_retries)`,
catching every exception and retrying; after the last failure, return the
error dict carrying the last exception's message. -/
def keterLoop (oracle : Nat → KeterAttempt) (maxRetries : Nat) :
    Nat → Nat → String → Rec'
  | 0, _, lastError => keterErrorDict maxRetries lastError
  | remaining + 1, attempt, _lastError =>
      match keterTryOnce (oracle attempt) attempt with
      | .ok res => res
      | .error e => keterLoop oracle maxRetries remaining (attempt + 1) e

/-- `Keter.validate` with its default `max_retries = 3` (as called from
`Keter.process`); `last_error` starts as Python `None`. -/
def keterValidate (oracle : Nat → KeterAttempt) (maxRetries : Nat := 3) : Rec' :=
  keterLoop oracle maxRetries maxRetries 0 "None"

/-- Concrete oracle: the first attempt's `generate` raises a provider
timeout, the second attempt parses cleanly. -/
def c3Oracle : Nat → KeterAttempt := fun n =>
  if n = 0 then KeterAttempt.genFail "TimeoutError: Gemini API timeout after 30 seconds"
  else KeterAttempt.parsed
    [("reduces_suffering", ScoreV.sint 7), ("respects_free_will", ScoreV.sint 5),
     ("promotes_harmony", ScoreV.sint 6), ("justice_mercy_balance", ScoreV.sint 4),
     ("aligned_with_truth", ScoreV.sint 8)] [] "fine"

/-- Concrete oracle: every attempt's parse step raises. -/
def c3AllFail : Nat → KeterAttempt := fun _ =>
  KeterAttempt.parseFail "ValueError: Failed to parse JSON"

/-- C3 counterexample: the claim says a provider timeout is not retried, but
on an input whose first attempt raises a provider timeout, `Keter.validate`
retries: the run ends without an error field and reports `attempts = 2`,
so the timeout was retried rather than converted to an error result. -/
theorem c3_timeout_retried_counterexample :
    c3Oracle 0 = KeterAttempt.genFail "TimeoutError: Gemini API timeout after 30 seconds"
    ∧ recLookup (keterValidate c3Oracle) "error" = none
    ∧ recLookup (keterValidate c3Oracle) "attempts" = some (Val.vint 2) :=
  ⟨rfl, rfl, rfl⟩

/-- C3 (amended): Keter applies a bounded retry loop with a fixed maximum of
3 attempts around the whole generate-and-parse step: any failure — a JSON
parse failure or a provider timeout alike — is retried up to the bound; only
after 3 failed attempts does Keter return an error result (carrying the last
failure's message), and the first successful attempt's result is returned
as-is. -/
theorem c3_retry_any_failure (oracle : Nat → KeterAttempt) :
    ((∀ k, k < 3 → ∃ e, keterTryOnce (oracle k) k = Except.error e) →
      ∃ e, keterTryOnce (oracle 2) 2 = Except.error e ∧
        keterValidate oracle = keterErrorDict 3 e ∧
        recLookup (keterValidate oracle) "error" ≠ none)
    ∧ (∀ (k : Nat), k < 3 → ∀ (res : Rec'),
        (∀ i, i < k → ∃ e, keterTryOnce (oracle i) i = Except.error e) →
        keterTryOnce (oracle k) k = Except.ok res →
        keterValidate oracle = res) := by
  constructor
  · intro h
    obtain ⟨e0, he0⟩ := h 0 (by omega)
    obtain ⟨e1, he1⟩ := h 1 (by omega)
    obtain ⟨e2, he2⟩ := h 2 (by omega)
    refine ⟨e2, he2, ?_, ?_⟩
    · simp [keterValidate, keterLoop, he0, he1, he2]
    · simp [keterValidate, keterLoop, he0, he1, he2, keterErrorDict, recLookup]
  · intro k hk res hprev hok
    match k with
    | 0 =>
        simp [keterValidate, keterLoop, hok]
    | 1 =>
        obtain ⟨e0, he0⟩ := hprev 0 (by omega)
        simp [keterValidate, keterLoop, he0, hok]
    | 2 =>
        obtain ⟨e0, he0⟩ := hprev 0 (by omega)
        obtain ⟨e1, he1⟩ := hprev 1 (by omega)
        simp [keterValidate, keterLoop, he0, he1, hok]

/-- C3 witness: the amended theorem applied to the all-failures oracle and to
an oracle that succeeds on its second attempt. -/
theorem c3_retry_any_failure_witness :
    (keterTryOnce (c3AllFail 0) 0 = Except.error "ValueError: Failed to parse JSON"
      ∧ recLookup (keterValidate c3AllFail) "error" ≠ none)
    ∧ (1 < 3
      ∧ keterValidate c3Oracle = ((keterTryOnce (c3Oracle 1) 1).toOption.getD [])) := by
  refine ⟨⟨rfl, ?_⟩, ⟨by decide, ?_⟩⟩
  · obtain ⟨e, _, _, hne⟩ := (c3_retry_any_failure c3AllFail).1 (fun k _ =>
      ⟨"ValueError: Failed to parse JSON", rfl⟩)
    exact hne
  · refine (c3_retry_any_failure c3Oracle).2 1 (by decide) _ ?_ rfl
    intro i hi
    have h0 : i = 0 := by omega
    subst h0
    exact ⟨"TimeoutError: Gemini API timeout after 30 seconds", rfl⟩

/-- Summing a normalised score list that still contains a string raises
`TypeError` (models `sum()` over mixed int/str values). -/
theorem sumScoresAux_str_error (l : List ScoreV) :
    ∀ (acc : Int), (∃ v ∈ l, ∃ s, v = ScoreV.sstr s) →
      ∃ m, sumScoresAux acc l = Except.error m := by
  induction l with
  | nil => intro acc h; obtain ⟨v, hv, _⟩ := h; simp at hv
  | cons v rest ih =>
      intro acc h
      obtain ⟨w, hw, s, hs⟩ := h
      match v with
      | ScoreV.sstr t => exact ⟨_, rfl⟩
      | ScoreV.sint n =>
          rcases List.mem_cons.mp hw with hw | hw
          · subst hw; cases hs
          · exact ih (acc + n) ⟨w, hw, s, hs⟩

/-- A parsed payload containing a non-numeric string sub-score makes the
attempt body raise (coercion leaves the string, and the sum then raises). -/
theorem keterTryOnce_bad_score (scores : List (String × ScoreV))
    (corrs : List Corruption) (rsn : String) (attempt : Nat)
    (h : ∃ p ∈ scores, ∃ s, p.2 = ScoreV.sstr s ∧ pyInt? s = none) :
    ∃ m, keterTryOnce (KeterAttempt.parsed scores corrs rsn) attempt
      = Except.error m := by
  obtain ⟨p, hp, s, hs, hnone⟩ := h
  have hmem : ScoreV.sstr s ∈
      ((scores.map (fun q => (q.1, normalizeScore q.2))).map Prod.snd) := by
    rw [List.map_map]
    refine List.mem_map.mpr ⟨p, hp, ?_⟩
    simp [Function.comp, hs, normalizeScore, hnone]
  obtain ⟨m, hm⟩ := sumScoresAux_str_error
    ((scores.map (fun q => (q.1, normalizeScore q.2))).map Prod.snd) 0
    ⟨ScoreV.sstr s, hmem, s, rfl⟩
  refine ⟨m, ?_⟩
  simp only [keterTryOnce, hm]

/-- C5: string-score coercion.  (a) If the model returns the sub-scores as
decimal strings that parse to the integers `n`, the attempt's entire result
(in particular `alignment_score`) equals the result computed from the
integers directly.  (b) If every attempt's payload contains a non-numeric
string sub-score, `Keter.validate` returns an error record — it never lets
the `TypeError` escape to the caller (the model is a total function). -/
theorem c5_score_coercion :
    (∀ (pairs : List (String × String × Int)) (corrs : List Corruption)
        (rsn : String) (attempt : Nat),
      (∀ p ∈ pairs, pyInt? p.2.1 = some p.2.2) →
      keterTryOnce (KeterAttempt.parsed
          (pairs.map fun p => (p.1, ScoreV.sstr p.2.1)) corrs rsn) attempt
        = keterTryOnce (KeterAttempt.parsed
            (pairs.map fun p => (p.1, ScoreV.sint p.2.2)) corrs rsn) attempt)
    ∧ (∀ (oracle : Nat → KeterAttempt),
        (∀ k, k < 3 → ∃ scores corrs rsn,
          oracle k = KeterAttempt.parsed scores corrs rsn ∧
          ∃ p ∈ scores, ∃ s, p.2 = ScoreV.sstr s ∧ pyInt? s = none) →
        recLookup (keterValidate oracle) "error" ≠ none) := by
  constructor
  · intro pairs corrs rsn attempt h
    have hmap : (pairs.map fun p => (p.1, ScoreV.sstr p.2.1)).map
          (fun p => (p.1, normalizeScore p.2))
        = (pairs.map fun p => (p.1, ScoreV.sint p.2.2)).map
            (fun p => (p.1, normalizeScore p.2)) := by
      rw [List.map_map, List.map_map]
      apply List.map_congr_left
      intro p hp
      simp [Function.comp, normalizeScore, h p hp]
    simp only [keterTryOnce, hmap]
  · intro oracle h
    have hfail : ∀ k, k < 3 → ∃ e, keterTryOnce (oracle k) k = Except.error e := by
      intro k hk
      obtain ⟨scores, corrs, rsn, hok, hbad⟩ := h k hk
      rw [hok]
      exact keterTryOnce_bad_score scores corrs rsn k hbad
    obtain ⟨e0, he0⟩ := hfail 0 (by omega)
    obtain ⟨e1, he1⟩ := hfail 1 (by omega)
    obtain ⟨e2, he2⟩ := hfail 2 (by omega)
    simp [keterValidate, keterLoop, he0, he1, he2, keterErrorDict, recLookup]

/-- Concrete five-dimension scores as decimal strings with their integer
counterparts. -/
def c5Pairs : List (String × String × Int) :=
  [("reduces_suffering", "7", 7), ("respects_free_will", "-3", -3),
   ("promotes_harmony", "6", 6), ("justice_mercy_balance", "4", 4),
   ("aligned_with_truth", "8", 8)]

/-- Concrete oracle whose payload always carries a non-numeric sub-score. -/
def c5BadOracle : Nat → KeterAttempt := fun _ =>
  KeterAttempt.parsed [("reduces_suffering", ScoreV.sstr "high")] [] "r"

/-- C5 witness: the theorem applied at the concrete string scores
`"7", "-3", ...` and at a payload with the non-numeric sub-score `"high"`. -/
theorem c5_score_coercion_witness :
    (pyInt? "7" = some 7 ∧ pyInt? "-3" = some (-3) ∧
      keterTryOnce (KeterAttempt.parsed
          (c5Pairs.map fun p => (p.1, ScoreV.sstr p.2.1)) [] "r") 0
        = keterTryOnce (KeterAttempt.parsed
            (c5Pairs.map fun p => (p.1, ScoreV.sint p.2.2)) [] "r") 0)
    ∧ (pyInt? "high" = none ∧
        recLookup (keterValidate c5BadOracle) "error" ≠ none) := by
  refine ⟨⟨by decide, by decide, c5_score_coercion.1 c5Pairs [] "r" 0 ?_⟩,
    ⟨by decide, c5_score_coercion.2 c5BadOracle ?_⟩⟩
  · intro p hp
    fin_cases hp <;> decide
  · intro k hk
    exact ⟨[("reduces_suffering", ScoreV.sstr "high")], [], "r", rfl,
      ("reduces_suffering", ScoreV.sstr "high"), by simp, "high", rfl, by decide⟩

/-! ## Dual-perspective stage: BinahSigma (`sefirot/binah_sigma.py`) -/

/-- One perspective's parsed analysis, as read by `_process_sigma` via
`.get` with defaults (`stakeholders`, `contextual_dimensions`,
`key_insights`). -/
structure PerspRaw where
  stakeholders : List Val
  contextual_dimensions : Val
  key_insights : List String

/-- `BinahSigma._calculate_bias_delta` after the two `key_insights` lists
have been converted to sets: Jaccard distance as a percentage, with the
source's guards for the empty cases and the final `min(delta, 100.0)`. -/
def biasDelta (west east : Finset String) : ℚ :=
  if west = ∅ ∧ east = ∅ then 0
  else
    let inter := (west ∩ east).card
    let union := (west ∪ east).card
    if union = 0 then 0
    else min ((1 - (inter : ℚ) / (union : ℚ)) * 100) 100

/-- `BinahSigma._calculate_bias_delta` on the perspective records
(`set(west.get('key_insights', []))` etc.). -/
def calculateBiasDelta (west east : PerspRaw) : ℚ :=
  biasDelta west.key_insights.toFinset east.key_insights.toFinset

/-- On a nonempty union the metric is exactly the Jaccard-distance
percentage (the `min` cap never binds). -/
theorem biasDelta_formula (A B : Finset String) (hne : (A ∪ B).Nonempty) :
    biasDelta A B = (1 - ((A ∩ B).card : ℚ) / ((A ∪ B).card : ℚ)) * 100 := by
  have hcard : (A ∪ B).card ≠ 0 := by
    have := Finset.card_pos.mpr hne
    omega
  have hcond : ¬ (A = ∅ ∧ B = ∅) := by
    rintro ⟨hA, hB⟩
    rw [hA, hB] at hne
    simp at hne
  have hle : (1 - ((A ∩ B).card : ℚ) / ((A ∪ B).card : ℚ)) * 100 ≤ 100 := by
    have hdiv : (0 : ℚ) ≤ ((A ∩ B).card : ℚ) / ((A ∪ B).card : ℚ) := by
      positivity
    nlinarith
  simp only [biasDelta]
  rw [if_neg hcond, if_neg hcard]
  exact min_eq_left hle

/-- C6 counterexample: when both insight sets are empty they share no
elements, yet `_calculate_bias_delta` returns `0`, not the `100` the claim
requires for disjoint sets. -/
theorem c6_empty_sets_counterexample :
    biasDelta (∅ : Finset String) (∅ : Finset String) = 0
    ∧ ((∅ : Finset String) ∩ (∅ : Finset String)) = ∅
    ∧ (0 : ℚ) ≠ 100 := by
  refine ⟨by simp [biasDelta], by simp, by norm_num⟩

/-- C6 (amended): the divergence metric equals the Jaccard distance as a
percentage whenever the two insight sets are not both empty; it is
symmetric, equals 0 on identical sets, equals 100 on disjoint sets at least
one of which is nonempty (when both are empty it returns 0), and on
`A = {x, y}`, `B = {y, z}` it equals `(1 − 1/3) × 100 = 200/3 ≈ 66.67`. -/
theorem c6_bias_delta_jaccard (A B : Finset String) :
    biasDelta A B = biasDelta B A
    ∧ biasDelta A A = 0
    ∧ (A ∩ B = ∅ → (A ∪ B).Nonempty → biasDelta A B = 100)
    ∧ ((A ∪ B).Nonempty →
        biasDelta A B = (1 - ((A ∩ B).card : ℚ) / ((A ∪ B).card : ℚ)) * 100)
    ∧ biasDelta ({"x", "y"} : Finset String) ({"y", "z"} : Finset String) = 200/3
    ∧ (∀ (w e : PerspRaw), calculateBiasDelta w e =
        biasDelta w.key_insights.toFinset e.key_insights.toFinset) := by
  have hex : biasDelta ({"x", "y"} : Finset String) ({"y", "z"} : Finset String) = 200/3 := by
    rw [biasDelta_formula ({"x", "y"} : Finset String) {"y", "z"} ⟨"x", by decide⟩]
    have h1 : (({"x", "y"} : Finset String) ∩ {"y", "z"}).card = 1 := by decide
    have h2 : (({"x", "y"} : Finset String) ∪ {"y", "z"}).card = 3 := by decide
    rw [h1, h2]
    norm_num
  refine ⟨?_, ?_, ?_, biasDelta_formula A B, hex, fun _ _ => rfl⟩
  · simp only [biasDelta, Finset.inter_comm, Finset.union_comm, and_comm]
  · by_cases hA : A = ∅
    · simp [biasDelta, hA]
    · have hne : (A ∪ A).Nonempty := by
        simp [Finset.nonempty_iff_ne_empty, hA]
      rw [biasDelta_formula A A hne]
      have hcard : ((A ∪ A).card : ℚ) ≠ 0 := by
        have h1 : (A ∪ A).Nonempty := hne
        have := Finset.card_pos.mpr h1
        exact_mod_cast Nat.pos_iff_ne_zero.mp this
      rw [Finset.inter_self, Finset.union_self] at *
      field_simp
  · intro hdisj hne
    rw [biasDelta_formula A B hne, hdisj]
    simp

/-- C6 witness: the amended theorem applied at the concrete disjoint pair
`{"a"}`, `{"b"}` and at the worked example. -/
theorem c6_bias_delta_witness :
    (({"a"} : Finset String) ∩ {"b"} = ∅
      ∧ (({"a"} : Finset String) ∪ {"b"}).Nonempty
      ∧ biasDelta ({"a"} : Finset String) {"b"} = 100)
    ∧ biasDelta ({"x", "y"} : Finset String) {"y", "z"} = 200/3 := by
  refine ⟨⟨by decide, ⟨"a", by decide⟩, ?_⟩,
    (c6_bias_delta_jaccard ∅ ∅).2.2.2.2.1⟩
  exact (c6_bias_delta_jaccard {"a"} {"b"}).2.2.1 (by decide) ⟨"a", by decide⟩

/-! ## Stage 3: Binah (`sefirot/binah.py`) and its derived metrics

The parsed payload is modelled by the fields `Binah.process` reads via
`.get` with defaults; `effects_cascade` is kept as its three constituent
lists. -/

/-- Parsed Binah payload (fields as extracted by `Binah.process`). -/
structure BinahRaw where
  context_9d : List Val
  stakeholders : List Val
  effects_first : List Val
  effects_second : List Val
  effects_third : List Val
  systemic_risks : List Val
  ethical_considerations : List Val
  synthesis : String

/-- 9D-analysis completeness term: `min((dimensions / 9) * 40, 40)`. -/
def binahDimensionsScore (dims : Nat) : ℚ := min ((dims : ℚ) / 9 * 40) 40

/-- Stakeholder-coverage term (max 20 points). -/
def binahStakeholderScore (st : Nat) : ℚ :=
  if 5 ≤ st then 20 else if 3 ≤ st then 15 else if 1 ≤ st then 10 else 0

/-- Effects-cascade depth term (max 20 points). -/
def binahCascadeScore (firstC secondC thirdC : Nat) : ℚ :=
  if 2 ≤ thirdC ∧ 2 ≤ secondC ∧ 3 ≤ firstC then 20
  else if 2 ≤ secondC ∧ 3 ≤ firstC then 15
  else if 3 ≤ firstC then 10
  else 0

/-- Synthesis-quality term over the synthesis text length (max 10 points). -/
def binahSynthesisScore (synLen : Nat) : ℚ :=
  if 800 < synLen then 10 else if 500 < synLen then 7 else if 300 < synLen then 5 else 0

/-- Systemic-risks term: `min(risks * 5, 10)`. -/
def binahRisksScore (risks : Nat) : ℚ := min ((risks : ℚ) * 5) 10

/-- `Binah._calculate_contextual_depth`. -/
def calculateContextualDepth (r : BinahRaw) : ℚ :=
  min (binahDimensionsScore r.context_9d.length
    + binahStakeholderScore r.stakeholders.length
    + binahCascadeScore r.effects_first.length r.effects_second.length r.effects_third.length
    + binahSynthesisScore r.synthesis.length
    + binahRisksScore r.systemic_risks.length) 100

/-- `Binah._assess_temporal_horizon`. -/
def assessTemporalHorizon (r : BinahRaw) : String :=
  let hasImmediate := 0 < r.effects_first.length
  let hasMedium := 0 < r.effects_second.length
  let hasLong := 0 < r.effects_third.length
  if hasImmediate ∧ hasMedium ∧ hasLong then "comprehensive (0-20 years)"
  else if hasImmediate ∧ hasMedium then "medium-term (0-5 years)"
  else if hasImmediate then "short-term (0-2 years)"
  else "limited"

/-- `Binah._assess_understanding_quality`. -/
def assessUnderstandingQuality (r : BinahRaw) : String :=
  if 80 ≤ calculateContextualDepth r ∧ r.context_9d.length = 9 ∧ 4 ≤ r.stakeholders.length
  then "exceptional"
  else if 65 ≤ calculateContextualDepth r ∧ 7 ≤ r.context_9d.length ∧ 3 ≤ r.stakeholders.length
  then "high"
  else if 50 ≤ calculateContextualDepth r ∧ 5 ≤ r.context_9d.length
  then "moderate"
  else "low"

/-- `Binah.process`: on a parsed payload, the enriched result dict; on any
raised exception, the error dict (timestamp placeholder, first activation). -/
def binahProcessDict (outcome : Except String BinahRaw) : Rec' :=
  match outcome with
  | .error e => [("sefira", Val.vstr "binah"), ("error", Val.vstr e), ("timestamp", Val.vstr "")]
  | .ok r =>
      [("sefira", Val.vstr "binah"),
       ("sefira_number", Val.vint 3),
       ("hebrew_name", Val.vstr "בינה"),
       ("context_9d", Val.vlist r.context_9d),
       ("stakeholders", Val.vlist r.stakeholders),
       ("effects_cascade", Val.vdict
         [("first_order", Val.vlist r.effects_first),
          ("second_order", Val.vlist r.effects_second),
          ("third_order", Val.vlist r.effects_third)]),
       ("systemic_risks", Val.vlist r.systemic_risks),
       ("ethical_considerations", Val.vlist r.ethical_considerations),
       ("synthesis", Val.vstr r.synthesis),
       ("contextual_depth_score", Val.vrat (pyRound (calculateContextualDepth r) 2)),
       ("stakeholder_coverage", Val.vint r.stakeholders.length),
       ("temporal_horizon", Val.vstr (assessTemporalHorizon r)),
       ("understanding_quality", Val.vstr (assessUnderstandingQuality r)),
       ("timestamp", Val.vstr ""),
       ("model_used", Val.vstr "gemini-2.0-flash-exp"),
       ("activation_count", Val.vint 1)]

/-! ## Stage 5: Gevurah severity score (`sefirot/gevurah.py`) -/

/-- Parsed Gevurah payload: each risk list is represented by the `severity`
strings read from its entries (`risk.get('severity')`), the other fields by
the lists whose lengths are counted.  Python float literals `6.67`, `7.5`,
`3.33` are modelled by the decimal rationals they denote. -/
structure GevurahRaw where
  short_term : List String
  medium_term : List String
  long_term : List String
  red_lines : List Val
  constraints : List Val
  failure_modes : List Val
  mitigation_requirements : List Val

/-- Count of risks with a given severity across the three timeframes. -/
def countSeverity (r : GevurahRaw) (sev : String) : Nat :=
  ((r.short_term ++ r.medium_term ++ r.long_term).filter (fun s => s = sev)).length

/-- Critical-risk term: `min(critical_risks * 10, 25)`. -/
def gevurahCriticalScore (n : Nat) : ℚ := min ((n : ℚ) * 10) 25

/-- High-risk term: `min(high_risks * 5, 15)`. -/
def gevurahHighScore (n : Nat) : ℚ := min ((n : ℚ) * 5) 15

/-- Red-lines term: `min(redlines_count * 6.67, 20)`. -/
def gevurahRedLinesScore (n : Nat) : ℚ := min ((n : ℚ) * (667/100)) 20

/-- Constraints term: `min(constraints_count * 5, 15)`. -/
def gevurahConstraintsScore (n : Nat) : ℚ := min ((n : ℚ) * 5) 15

/-- Failure-modes term: `min(failure_modes_count * 7.5, 15)`. -/
def gevurahFailureModesScore (n : Nat) : ℚ := min ((n : ℚ) * (15/2)) 15

/-- Mitigation term: `min(mitigation_count * 3.33, 10)`. -/
def gevurahMitigationScore (n : Nat) : ℚ := min ((n : ℚ) * (333/100)) 10

/-- `Gevurah._calculate_severity_score`. -/
def calculateSeverityScore (r : GevurahRaw) : ℚ :=
  min (gevurahCriticalScore (countSeverity r "critical")
    + gevurahHighScore (countSeverity r "high")
    + gevurahRedLinesScore r.red_lines.length
    + gevurahConstraintsScore r.constraints.length
    + gevurahFailureModesScore r.failure_modes.length
    + gevurahMitigationScore r.mitigation_requirements.length) 100

/-! ## BinahSigma depth score (`sefirot/binah_sigma.py`) -/

/-- Parsed synthesis payload of the sigma meta-analysis call. -/
structure SynthRaw where
  west_blind_spots : List Val
  east_blind_spots : List Val
  universal_convergence : List Val
  transcendent_synthesis : String
  recommended_balance : String

/-- Per-perspective quality term: `min(stakeholders * 5 + insights * 3, 25)`
(used once for west, once for east). -/
def sigmaPerspScore (stakeholders insights : Nat) : ℚ :=
  min ((stakeholders : ℚ) * 5 + (insights : ℚ) * 3) 25

/-- Blind-spots term: `min(blind_spots * 5, 20)`. -/
def sigmaBlindSpotsScore (n : Nat) : ℚ := min ((n : ℚ) * 5) 20

/-- Convergence term: `min(convergence * 5, 20)`. -/
def sigmaConvergenceScore (n : Nat) : ℚ := min ((n : ℚ) * 5) 20

/-- Synthesis-text term: `min(len(text) / 20, 10)`. -/
def sigmaSynthesisTextScore (len : Nat) : ℚ := min ((len : ℚ) / 20) 10

/-- `BinahSigma._calculate_sigma_depth_score`. -/
def calculateSigmaDepthScore (west east : PerspRaw) (synth : SynthRaw) : ℚ :=
  min (sigmaPerspScore west.stakeholders.length west.key_insights.length
    + sigmaPerspScore east.stakeholders.length east.key_insights.length
    + sigmaBlindSpotsScore (synth.west_blind_spots.length + synth.east_blind_spots.length)
    + sigmaConvergenceScore synth.universal_convergence.length
    + sigmaSynthesisTextScore synth.transcendent_synthesis.length) 100

theorem binahDimensionsScore_bounds (n : Nat) :
    0 ≤ binahDimensionsScore n ∧ binahDimensionsScore n ≤ 40 := by
  unfold binahDimensionsScore
  exact ⟨le_min (by positivity) (by norm_num), min_le_right _ _⟩

theorem binahStakeholderScore_bounds (n : Nat) :
    0 ≤ binahStakeholderScore n ∧ binahStakeholderScore n ≤ 20 := by
  unfold binahStakeholderScore
  split_ifs <;> norm_num

theorem binahCascadeScore_bounds (a b c : Nat) :
    0 ≤ binahCascadeScore a b c ∧ binahCascadeScore a b c ≤ 20 := by
  unfold binahCascadeScore
  split_ifs <;> norm_num

theorem binahSynthesisScore_bounds (n : Nat) :
    0 ≤ binahSynthesisScore n ∧ binahSynthesisScore n ≤ 10 := by
  unfold binahSynthesisScore
  split_ifs <;> norm_num

theorem binahRisksScore_bounds (n : Nat) :
    0 ≤ binahRisksScore n ∧ binahRisksScore n ≤ 10 := by
  unfold binahRisksScore
  exact ⟨le_min (by positivity) (by norm_num), min_le_right _ _⟩

theorem gevurahCriticalScore_bounds (n : Nat) :
    0 ≤ gevurahCriticalScore n ∧ gevurahCriticalScore n ≤ 25 := by
  unfold gevurahCriticalScore
  exact ⟨le_min (by positivity) (by norm_num), min_le_right _ _⟩

theorem gevurahHighScore_bounds (n : Nat) :
    0 ≤ gevurahHighScore n ∧ gevurahHighScore n ≤ 15 := by
  unfold gevurahHighScore
  exact ⟨le_min (by positivity) (by norm_num), min_le_right _ _⟩

theorem gevurahRedLinesScore_bounds (n : Nat) :
    0 ≤ gevurahRedLinesScore n ∧ gevurahRedLinesScore n ≤ 20 := by
  unfold gevurahRedLinesScore
  exact ⟨le_min (by positivity) (by norm_num), min_le_right _ _⟩

theorem gevurahConstraintsScore_bounds (n : Nat) :
    0 ≤ gevurahConstraintsScore n ∧ gevurahConstraintsScore n ≤ 15 := by
  unfold gevurahConstraintsScore
  exact ⟨le_min (by positivity) (by norm_num), min_le_right _ _⟩

theorem gevurahFailureModesScore_bounds (n : Nat) :
    0 ≤ gevurahFailureModesScore n ∧ gevurahFailureModesScore n ≤ 15 := by
  unfold gevurahFailureModesScore
  exact ⟨le_min (by positivity) (by norm_num), min_le_right _ _⟩

theorem gevurahMitigationScore_bounds (n : Nat) :
    0 ≤ gevurahMitigationScore n ∧ gevurahMitigationScore n ≤ 10 := by
  unfold gevurahMitigationScore
  exact ⟨le_min (by positivity) (by norm_num), min_le_right _ _⟩

theorem sigmaPerspScore_bounds (a b : Nat) :
    0 ≤ sigmaPerspScore a b ∧ sigmaPerspScore a b ≤ 25 := by
  unfold sigmaPerspScore
  exact ⟨le_min (by positivity) (by norm_num), min_le_right _ _⟩

theorem sigmaBlindSpotsScore_bounds (n : Nat) :
    0 ≤ sigmaBlindSpotsScore n ∧ sigmaBlindSpotsScore n ≤ 20 := by
  unfold sigmaBlindSpotsScore
  exact ⟨le_min (by positivity) (by norm_num), min_le_right _ _⟩

theorem sigmaConvergenceScore_bounds (n : Nat) :
    0 ≤ sigmaConvergenceScore n ∧ sigmaConvergenceScore n ≤ 20 := by
  unfold sigmaConvergenceScore
  exact ⟨le_min (by positivity) (by norm_num), min_le_right _ _⟩

theorem sigmaSynthesisTextScore_bounds (n : Nat) :
    0 ≤ sigmaSynthesisTextScore n ∧ sigmaSynthesisTextScore n ≤ 10 := by
  unfold sigmaSynthesisTextScore
  exact ⟨le_min (by positivity) (by norm_num), min_le_right _ _⟩

/-- C9: each composite derived-metric function stays within [0, 100] on
every input record, and no individual sub-term exceeds its documented cap
(40/20/20/10/10 for Binah's components, 25/15/20/15/15/10 for Gevurah's,
25/25/20/20/10 for Sigma's); every sub-term is also nonnegative. -/
theorem c9_metric_caps :
    (∀ r : BinahRaw, 0 ≤ calculateContextualDepth r ∧ calculateContextualDepth r ≤ 100)
    ∧ (∀ n : Nat, 0 ≤ binahDimensionsScore n ∧ binahDimensionsScore n ≤ 40
        ∧ 0 ≤ binahStakeholderScore n ∧ binahStakeholderScore n ≤ 20
        ∧ 0 ≤ binahSynthesisScore n ∧ binahSynthesisScore n ≤ 10
        ∧ 0 ≤ binahRisksScore n ∧ binahRisksScore n ≤ 10)
    ∧ (∀ a b c : Nat, 0 ≤ binahCascadeScore a b c ∧ binahCascadeScore a b c ≤ 20)
    ∧ (∀ r : GevurahRaw, 0 ≤ calculateSeverityScore r ∧ calculateSeverityScore r ≤ 100)
    ∧ (∀ n : Nat, 0 ≤ gevurahCriticalScore n ∧ gevurahCriticalScore n ≤ 25
        ∧ 0 ≤ gevurahHighScore n ∧ gevurahHighScore n ≤ 15
        ∧ 0 ≤ gevurahRedLinesScore n ∧ gevurahRedLinesScore n ≤ 20
        ∧ 0 ≤ gevurahConstraintsScore n ∧ gevurahConstraintsScore n ≤ 15
        ∧ 0 ≤ gevurahFailureModesScore n ∧ gevurahFailureModesScore n ≤ 15
        ∧ 0 ≤ gevurahMitigationScore n ∧ gevurahMitigationScore n ≤ 10)
    ∧ (∀ (w e : PerspRaw) (s : SynthRaw), 0 ≤ calculateSigmaDepthScore w e s
        ∧ calculateSigmaDepthScore w e s ≤ 100)
    ∧ (∀ a b : Nat, 0 ≤ sigmaPerspScore a b ∧ sigmaPerspScore a b ≤ 25)
    ∧ (∀ n : Nat, 0 ≤ sigmaBlindSpotsScore n ∧ sigmaBlindSpotsScore n ≤ 20
        ∧ 0 ≤ sigmaConvergenceScore n ∧ sigmaConvergenceScore n ≤ 20
        ∧ 0 ≤ sigmaSynthesisTextScore n ∧ sigmaSynthesisTextScore n ≤ 10) := by
  refine ⟨?_, ?_, binahCascadeScore_bounds, ?_, ?_, ?_, sigmaPerspScore_bounds, ?_⟩
  · intro r
    obtain ⟨h1, _⟩ := binahDimensionsScore_bounds r.context_9d.length
    obtain ⟨h2, _⟩ := binahStakeholderScore_bounds r.stakeholders.length
    obtain ⟨h3, _⟩ := binahCascadeScore_bounds r.effects_first.length
      r.effects_second.length r.effects_third.length
    obtain ⟨h4, _⟩ := binahSynthesisScore_bounds r.synthesis.length
    obtain ⟨h5, _⟩ := binahRisksScore_bounds r.systemic_risks.length
    unfold calculateContextualDepth
    exact ⟨le_min (by linarith) (by norm_num), min_le_right _ _⟩
  · intro n
    obtain ⟨a1, a2⟩ := binahDimensionsScore_bounds n
    obtain ⟨b1, b2⟩ := binahStakeholderScore_bounds n
    obtain ⟨c1, c2⟩ := binahSynthesisScore_bounds n
    obtain ⟨d1, d2⟩ := binahRisksScore_bounds n
    exact ⟨a1, a2, b1, b2, c1, c2, d1, d2⟩
  · intro r
    obtain ⟨h1, _⟩ := gevurahCriticalScore_bounds (countSeverity r "critical")
    obtain ⟨h2, _⟩ := gevurahHighScore_bounds (countSeverity r "high")
    obtain ⟨h3, _⟩ := gevurahRedLinesScore_bounds r.red_lines.length
    obtain ⟨h4, _⟩ := gevurahConstraintsScore_bounds r.constraints.length
    obtain ⟨h5, _⟩ := gevurahFailureModesScore_bounds r.failure_modes.length
    obtain ⟨h6, _⟩ := gevurahMitigationScore_bounds r.mitigation_requirements.length
    unfold calculateSeverityScore
    exact ⟨le_min (by linarith) (by norm_num), min_le_right _ _⟩
  · intro n
    obtain ⟨a1, a2⟩ := gevurahCriticalScore_bounds n
    obtain ⟨b1, b2⟩ := gevurahHighScore_bounds n
    obtain ⟨c1, c2⟩ := gevurahRedLinesScore_bounds n
    obtain ⟨d1, d2⟩ := gevurahConstraintsScore_bounds n
    obtain ⟨e1, e2⟩ := gevurahFailureModesScore_bounds n
    obtain ⟨f1, f2⟩ := gevurahMitigationScore_bounds n
    exact ⟨a1, a2, b1, b2, c1, c2, d1, d2, e1, e2, f1, f2⟩
  · intro w e s
    obtain ⟨h1, _⟩ := sigmaPerspScore_bounds w.stakeholders.length w.key_insights.length
    obtain ⟨h2, _⟩ := sigmaPerspScore_bounds e.stakeholders.length e.key_insights.length
    obtain ⟨h3, _⟩ := sigmaBlindSpotsScore_bounds
      (s.west_blind_spots.length + s.east_blind_spots.length)
    obtain ⟨h4, _⟩ := sigmaConvergenceScore_bounds s.universal_convergence.length
    obtain ⟨h5, _⟩ := sigmaSynthesisTextScore_bounds s.transcendent_synthesis.length
    unfold calculateSigmaDepthScore
    exact ⟨le_min (by linarith) (by norm_num), min_le_right _ _⟩
  · intro n
    obtain ⟨a1, a2⟩ := sigmaBlindSpotsScore_bounds n
    obtain ⟨b1, b2⟩ := sigmaConvergenceScore_bounds n
    obtain ⟨c1, c2⟩ := sigmaSynthesisTextScore_bounds n
    exact ⟨a1, a2, b1, b2, c1, c2⟩

/-! ## BinahSigma dual-perspective flow (`sefirot/binah_sigma.py`) -/

/-- `startswith` on character lists (prefix test for the substring search). -/
def startsWithSub : List Char → List Char → Bool
  | [], _ => true
  | _ :: _, [] => false
  | a :: as, b :: bs => a = b && startsWithSub as bs

/-- Python `needle in hay` substring membership on character lists. -/
def containsSub : List Char → List Char → Bool
  | needle, [] => needle.isEmpty
  | needle, c :: rest => startsWithSub needle (c :: rest) || containsSub needle rest

/-- ASCII lowering of one character (Python `str.lower()` on the ASCII range
relevant to the keyword test). -/
def pyToLower (c : Char) : Char :=
  if 65 ≤ c.toNat ∧ c.toNat ≤ 90 then Char.ofNat (c.toNat + 32) else c

/-- `BinahSigma.GEOPOLITICAL_KEYWORDS` (verbatim, including the repeated
`nato`/`otan` entries). -/
def geopoliticalKeywords : List String :=
  ["war", "guerra", "conflict", "conflicto", "invasion", "invasión",
   "nato", "otan", "military", "militar",
   "russia", "rusia", "ukraine", "ucrania",
   "china", "taiwan",
   "israel", "palestine", "palestina",
   "venezuela", "iran",
   "democracy", "democracia", "authoritarianism", "autoritarismo",
   "communism", "comunismo", "capitalism", "capitalismo",
   "socialism", "socialismo",
   "human rights", "derechos humanos",
   "freedom", "libertad", "privacy", "privacidad",
   "surveillance", "vigilancia",
   "censorship", "censura",
   "un security council", "consejo de seguridad",
   "world bank", "banco mundial",
   "nato", "otan"]

/-- `BinahSigma.should_use_sigma`: keyword membership over the lowercased
scenario. -/
def shouldUseSigma (scenario : String) : Bool :=
  geopoliticalKeywords.any (fun kw => containsSub kw.data (scenario.data.map pyToLower))

/-- `BinahSigma._assess_divergence_level`. -/
def assessDivergenceLevel (d : ℚ) : String :=
  if 70 ≤ d then "extreme divergence"
  else if 50 ≤ d then "high divergence"
  else if 30 ≤ d then "moderate divergence"
  else if 15 ≤ d then "low divergence"
  else "minimal divergence"

/-- `spot.get('blind_spot', '')` on a blind-spot entry. -/
def vGetStr (v : Val) (k : String) : String :=
  match v with
  | Val.vdict d =>
      match recLookup d k with
      | some (Val.vstr s) => s
      | _ => ""
  | _ => ""

/-- `BinahSigma._extract_blind_spots`: flat list of labelled blind spots. -/
def extractBlindSpots (synth : SynthRaw) : List String :=
  synth.west_blind_spots.map (fun v => "West: " ++ vGetStr v "blind_spot")
    ++ synth.east_blind_spots.map (fun v => "East: " ++ vGetStr v "blind_spot")

/-- The full-sigma result dict of `BinahSigma._process_sigma` (field order as
in the source; `understanding_quality` is the hardcoded `'exceptional'`). -/
def sigmaSuccessDict (west east : PerspRaw) (synth : SynthRaw) : Rec' :=
  let d : ℚ := calculateBiasDelta west east
  [("sefira", Val.vstr "binah_sigma"),
   ("sefira_number", Val.vint 3),
   ("hebrew_name", Val.vstr "בינה"),
   ("mode", Val.vstr "sigma"),
   ("west_analysis", Val.vdict
     [("perspective", Val.vstr "Western Liberal Democratic"),
      ("stakeholders", Val.vlist west.stakeholders),
      ("contextual_dimensions", west.contextual_dimensions),
      ("key_insights", Val.vlist (west.key_insights.map Val.vstr))]),
   ("east_analysis", Val.vdict
     [("perspective", Val.vstr "Eastern Collective Harmony"),
      ("stakeholders", Val.vlist east.stakeholders),
      ("contextual_dimensions", east.contextual_dimensions),
      ("key_insights", Val.vlist (east.key_insights.map Val.vstr))]),
   ("sigma_synthesis", Val.vdict
     [("west_blind_spots", Val.vlist synth.west_blind_spots),
      ("east_blind_spots", Val.vlist synth.east_blind_spots),
      ("universal_convergence", Val.vlist synth.universal_convergence),
      ("transcendent_synthesis", Val.vstr synth.transcendent_synthesis),
      ("recommended_balance", Val.vstr synth.recommended_balance)]),
   ("bias_delta", Val.vrat (pyRound d 2)),
   ("divergence_level", Val.vstr (assessDivergenceLevel d)),
   ("blind_spots_detected", Val.vint (extractBlindSpots synth).length),
   ("convergence_points", Val.vint synth.universal_convergence.length),
   ("contextual_depth_score", Val.vrat (calculateSigmaDepthScore west east synth)),
   ("understanding_quality", Val.vstr "exceptional"),
   ("timestamp", Val.vstr ""),
   ("model_west", Val.vstr "gemini-2.0-flash-exp"),
   ("model_east", Val.vstr "deepseek-chat"),
   ("activation_count", Val.vint 1)]

/-- The LLM interactions of one `BinahSigma.process` call: the (fallback)
single-perspective generate+parse, the west generate+parse, the east
`ask` (outer failure) and its parse (inner failure), and the synthesis
generate+parse. -/
structure SigmaOracle where
  simpleOutcome : Except String BinahRaw
  westOutcome : Except String PerspRaw
  eastAskOutcome : Except String (Except String PerspRaw)
  synthOutcome : Except String SynthRaw

/-- `BinahSigma._process_sigma`: west analysis (exceptions propagate), east
`ask` (exceptions propagate), east parse — whose failure degrades to the
plain `Binah.process` — then the synthesis call and the sigma dict. -/
def processSigma (o : SigmaOracle) : Except String Rec' :=
  match o.westOutcome with
  | .error e => .error e
  | .ok west =>
      match o.eastAskOutcome with
      | .error e => .error e
      | .ok (.error _) => .ok (binahProcessDict o.simpleOutcome)
      | .ok (.ok east) =>
          match o.synthOutcome with
          | .error e => .error e
          | .ok synth => .ok (sigmaSuccessDict west east synth)

/-- `BinahSigma.process`: auto-detect sigma mode unless overridden, force
simple mode when DeepSeek is unavailable, and dispatch. -/
def binahSigmaProcess (o : SigmaOracle) (hasDeepseek : Bool) (scenario : String)
    (useSigma : Option Bool) : Except String Rec' :=
  let use0 := useSigma.getD (shouldUseSigma scenario)
  let use1 := if use0 && !hasDeepseek then false else use0
  if use1 then processSigma o else .ok (binahProcessDict o.simpleOutcome)

/-- C2: degradation of the dual-perspective stage.  (a) If the secondary
(DeepSeek) gateway is unavailable at construction time, `BinahSigma.process`
returns exactly the plain `Binah.process` result on the same inputs.
(b) If the secondary perspective's output fails structured extraction,
it likewise returns exactly the plain `Binah.process` result.  (c) Whenever
it returns a dict at all, that dict is either the plain `Binah.process`
result or a full dual result carrying both `west_analysis` and
`east_analysis` — never a dual result with one side missing. -/
theorem c2_sigma_degradation (o : SigmaOracle) (scenario : String)
    (useSigma : Option Bool) :
    (binahSigmaProcess o false scenario useSigma
        = Except.ok (binahProcessDict o.simpleOutcome))
    ∧ (∀ (hasDeepseek : Bool) (west : PerspRaw) (pe : String),
        o.westOutcome = Except.ok west →
        o.eastAskOutcome = Except.ok (Except.error pe) →
        binahSigmaProcess o hasDeepseek scenario useSigma
          = Except.ok (binahProcessDict o.simpleOutcome))
    ∧ (∀ (hasDeepseek : Bool) (r : Rec'),
        binahSigmaProcess o hasDeepseek scenario useSigma = Except.ok r →
        r = binahProcessDict o.simpleOutcome ∨
          ((recLookup r "west_analysis").isSome ∧ (recLookup r "east_analysis").isSome)) := by
  refine ⟨?_, ?_, ?_⟩
  · cases huse : useSigma.getD (shouldUseSigma scenario) <;>
      simp [binahSigmaProcess, huse]
  · intro hasDeepseek west pe hwest heast
    cases huse : (if useSigma.getD (shouldUseSigma scenario) && !hasDeepseek then false
        else useSigma.getD (shouldUseSigma scenario)) <;>
      simp [binahSigmaProcess, huse, processSigma, hwest, heast]
  · intro hasDeepseek r hr
    by_cases huse : (if useSigma.getD (shouldUseSigma scenario) && !hasDeepseek then false
        else useSigma.getD (shouldUseSigma scenario)) = true
    · rw [binahSigmaProcess, if_pos huse] at hr
      rcases hwest : o.westOutcome with e | west <;> rw [processSigma, hwest] at hr
      · cases hr
      · rcases heast : o.eastAskOutcome with e | pe <;> rw [heast] at hr
        · cases hr
        · rcases pe with e | east
          · left
            cases hr
            rfl
          · rcases hsynth : o.synthOutcome with e | synth <;> rw [hsynth] at hr
            · cases hr
            · right
              cases hr
              exact ⟨rfl, rfl⟩
    · rw [binahSigmaProcess, if_neg huse] at hr
      left
      cases hr
      rfl

/-- Concrete perspective/synthesis payloads that are entirely empty. -/
def c8West : PerspRaw := ⟨[], Val.vdict [], []⟩

/-- Empty eastern perspective payload. -/
def c8East : PerspRaw := ⟨[], Val.vdict [], []⟩

/-- Empty synthesis payload. -/
def c8Synth : SynthRaw := ⟨[], [], [], "", ""⟩

/-- Oracle of a sigma run in which all three calls parse but return empty
payloads. -/
def c8Oracle : SigmaOracle :=
  ⟨Except.error "unused", Except.ok c8West, Except.ok (Except.ok c8East),
    Except.ok c8Synth⟩

/-- C8 counterexample: in the sigma path `understanding_quality` is the
hardcoded string `'exceptional'`, independent of the derived metrics: a run
with entirely empty payloads reports `exceptional` while its own
`contextual_depth_score` is 0 — so "exceptional requires the score reaching
the top band" is false for the stage at this pipeline position. -/
theorem c8_sigma_label_counterexample :
    binahSigmaProcess c8Oracle true "war" none
        = Except.ok (sigmaSuccessDict c8West c8East c8Synth)
    ∧ calculateSigmaDepthScore c8West c8East c8Synth = 0
    ∧ recLookup (sigmaSuccessDict c8West c8East c8Synth) "understanding_quality"
        = some (Val.vstr "exceptional")
    ∧ recLookup (sigmaSuccessDict c8West c8East c8Synth) "contextual_depth_score"
        = some (Val.vrat 0) := by
  have hscore : calculateSigmaDepthScore c8West c8East c8Synth = 0 := by
    norm_num [calculateSigmaDepthScore, sigmaPerspScore, sigmaBlindSpotsScore,
      sigmaConvergenceScore, sigmaSynthesisTextScore, min_def, c8West, c8East, c8Synth]
  refine ⟨rfl, hscore, rfl, ?_⟩
  have h : recLookup (sigmaSuccessDict c8West c8East c8Synth) "contextual_depth_score"
      = some (Val.vrat (calculateSigmaDepthScore c8West c8East c8Synth)) := rfl
  rw [h, hscore]

/-- C8 (amended): in the plain single-perspective Binah path the quality
label is one of the four fixed strings and is computed from the derived
metrics via fixed bands with minimum structural-element counts —
`"exceptional"` holds exactly when the depth score reaches 80 AND all 9
dimensions are present AND at least 4 stakeholders are identified (a single
high score is never sufficient); in the Sigma path, however,
`understanding_quality` is the constant `'exceptional'` regardless of the
derived metrics. -/
theorem c8_quality_label_bands :
    (∀ r : BinahRaw, assessUnderstandingQuality r = "exceptional"
        ∨ assessUnderstandingQuality r = "high"
        ∨ assessUnderstandingQuality r = "moderate"
        ∨ assessUnderstandingQuality r = "low")
    ∧ (∀ r : BinahRaw, assessUnderstandingQuality r = "exceptional" ↔
        (80 ≤ calculateContextualDepth r ∧ r.context_9d.length = 9
          ∧ 4 ≤ r.stakeholders.length))
    ∧ (∀ (w e : PerspRaw) (s : SynthRaw),
        recLookup (sigmaSuccessDict w e s) "understanding_quality"
          = some (Val.vstr "exceptional")) := by
  refine ⟨?_, ?_, fun _ _ _ => rfl⟩
  · intro r
    unfold assessUnderstandingQuality
    split_ifs <;> simp
  · intro r
    unfold assessUnderstandingQuality
    split_ifs with h1 h2 h3 <;> simp_all

/-- A parsed Binah payload meeting every requirement of the top band. -/
def c8GoodRaw : BinahRaw :=
  { context_9d := List.replicate 9 Val.vnull
    stakeholders := List.replicate 5 Val.vnull
    effects_first := List.replicate 3 Val.vnull
    effects_second := List.replicate 2 Val.vnull
    effects_third := List.replicate 2 Val.vnull
    systemic_risks := List.replicate 2 Val.vnull
    ethical_considerations := []
    synthesis := "" }

/-- C8 witness: the amended theorem applied to a payload that satisfies the
top band (and to the empty sigma run). -/
theorem c8_quality_label_bands_witness :
    ((80 ≤ calculateContextualDepth c8GoodRaw ∧ c8GoodRaw.context_9d.length = 9
        ∧ 4 ≤ c8GoodRaw.stakeholders.length)
      ∧ assessUnderstandingQuality c8GoodRaw = "exceptional")
    ∧ recLookup (sigmaSuccessDict c8West c8East c8Synth) "understanding_quality"
        = some (Val.vstr "exceptional") := by
  have hdepth : calculateContextualDepth c8GoodRaw = 90 := by
    norm_num [calculateContextualDepth, binahDimensionsScore, binahStakeholderScore,
      binahCascadeScore, binahSynthesisScore, binahRisksScore, c8GoodRaw, min_def,
      String.length]
  have hhyp : 80 ≤ calculateContextualDepth c8GoodRaw ∧ c8GoodRaw.context_9d.length = 9
      ∧ 4 ≤ c8GoodRaw.stakeholders.length := by
    refine ⟨by rw [hdepth]; norm_num, by decide, by decide⟩
  exact ⟨⟨hhyp, (c8_quality_label_bands.2.1 c8GoodRaw).mpr hhyp⟩,
    c8_quality_label_bands.2.2 c8West c8East c8Synth⟩

/-- Western perspective payload used by the C2 witness. -/
def c2West : PerspRaw := ⟨[], Val.vdict [], ["w1"]⟩

/-- Fallback single-perspective payload used by the C2 witness. -/
def c2SimpleRaw : BinahRaw := ⟨[], [], [], [], [], [], [], ""⟩

/-- Oracle of a sigma run whose east parse fails. -/
def c2Oracle : SigmaOracle :=
  ⟨Except.ok c2SimpleRaw, Except.ok c2West,
    Except.ok (Except.error "ValueError: Failed to parse JSON"),
    Except.error "unused"⟩

/-- C2 witness: the theorem applied with the secondary gateway unavailable,
with a failing east parse, and to a run returning a full dual result. -/
theorem c2_sigma_degradation_witness :
    (binahSigmaProcess c2Oracle false "war" none
        = Except.ok (binahProcessDict c2Oracle.simpleOutcome))
    ∧ (c2Oracle.westOutcome = Except.ok c2West
      ∧ c2Oracle.eastAskOutcome
          = Except.ok (Except.error "ValueError: Failed to parse JSON")
      ∧ binahSigmaProcess c2Oracle true "war" none
          = Except.ok (binahProcessDict c2Oracle.simpleOutcome))
    ∧ (binahSigmaProcess c8Oracle true "war" none
          = Except.ok (sigmaSuccessDict c8West c8East c8Synth)
      ∧ (sigmaSuccessDict c8West c8East c8Synth = binahProcessDict c8Oracle.simpleOutcome
        ∨ ((recLookup (sigmaSuccessDict c8West c8East c8Synth) "west_analysis").isSome
          ∧ (recLookup (sigmaSuccessDict c8West c8East c8Synth) "east_analysis").isSome))) := by
  refine ⟨(c2_sigma_degradation c2Oracle "war" none).1,
    ⟨rfl, rfl, (c2_sigma_degradation c2Oracle "war" none).2.1 true c2West _ rfl rfl⟩,
    ⟨rfl, (c2_sigma_degradation c8Oracle "war" none).2.2 true _ rfl⟩⟩

/-! ## Model Gateway JSON extraction (`sefirot/llm_client.py`)

`LLMClient.parse_json_response` strips markdown fences and control
characters, attempts a strict parse, and falls back to the first-`{`-to-
last-`}` span.  Strings are worked on as `List Char`.  Python's
`json.loads` is modelled by `loads`: a strict recursive-descent parser for
the JSON fragment exchanged here (objects, arrays, strings with the common
escapes, integer numbers, `true`/`false`/`null`); as in strict JSON, raw
control characters inside string literals are rejected. -/

/-- The `{` character. -/
def lbraceChar : Char := Char.ofNat 123

/-- The `}` character. -/
def rbraceChar : Char := Char.ofNat 125

/-- The backtick character. -/
def backtickChar : Char := Char.ofNat 96

/-- JSON inter-token whitespace. -/
def jsonIsWs (c : Char) : Bool :=
  c = ' ' ∨ c = '\t' ∨ c = '\n' ∨ c = '\r'

/-- JSON values (numbers restricted to the integers the stages exchange). -/
inductive Json where
  | jnull : Json
  | jbool (b : Bool) : Json
  | jnum (n : Int) : Json
  | jstr (s : List Char) : Json
  | jarr (xs : List Json) : Json
  | jobj (fields : List (List Char × Json)) : Json

/-- JSON string escape characters. -/
def escChar (c : Char) : Option Char :=
  if c = '"' then some '"'
  else if c = '\\' then some '\\'
  else if c = '/' then some '/'
  else if c = 'n' then some '\n'
  else if c = 't' then some '\t'
  else if c = 'r' then some '\r'
  else if c = 'b' then some (Char.ofNat 8)
  else if c = 'f' then some (Char.ofNat 12)
  else none

/-- Body of a JSON string literal after the opening quote: returns the
decoded content and the remainder after the closing quote. -/
def parseStringBody : List Char → Option (List Char × List Char)
  | [] => none
  | c :: rest =>
      if c = '"' then some ([], rest)
      else if c = '\\' then
        match rest with
        | [] => none
        | e :: rest2 =>
            match escChar e with
            | none => none
            | some ec =>
                match parseStringBody rest2 with
                | some (str, rem) => some (ec :: str, rem)
                | none => none
      else if c.toNat < 32 then none
      else
        match parseStringBody rest with
        | some (str, rem) => some (c :: str, rem)
        | none => none

/-- An integer JSON number starting at the head of the input (fractions and
exponents are outside the modelled fragment and rejected). -/
def parseNumber (s : List Char) : Option (Json × List Char) :=
  let neg := s.head? = some '-'
  let s1 := if neg then s.tail else s
  let ds := s1.takeWhile Char.isDigit
  let rest := s1.dropWhile Char.isDigit
  if ds.isEmpty then none
  else
    match rest with
    | c :: _ =>
        if c = '.' ∨ c = 'e' ∨ c = 'E' then none
        else some (Json.jnum (if neg then -(digitsVal ds : Int) else (digitsVal ds : Int)), rest)
    | [] => some (Json.jnum (if neg then -(digitsVal ds : Int) else (digitsVal ds : Int)), rest)

mutual

/-- One JSON value starting at the head of the input (leading whitespace
allowed), returning the remainder. -/
def parseValue : Nat → List Char → Option (Json × List Char)
  | 0, _ => none
  | fuel + 1, s =>
      let t := s.dropWhile jsonIsWs
      match t with
      | [] => none
      | c :: rest =>
          if c = lbraceChar then
            match rest.dropWhile jsonIsWs with
            | [] => none
            | c2 :: rest2 =>
                if c2 = rbraceChar then some (Json.jobj [], rest2)
                else parseObjFields fuel (c2 :: rest2) []
          else if c = '[' then
            match rest.dropWhile jsonIsWs with
            | [] => none
            | c2 :: rest2 =>
                if c2 = ']' then some (Json.jarr [], rest2)
                else parseArrItems fuel (c2 :: rest2) []
          else if c = '"' then
            match parseStringBody rest with
            | some (str, rem) => some (Json.jstr str, rem)
            | none => none
          else if c = 't' then
            if rest.take 3 = ['r', 'u', 'e'] then some (Json.jbool true, rest.drop 3) else none
          else if c = 'f' then
            if rest.take 4 = ['a', 'l', 's', 'e'] then some (Json.jbool false, rest.drop 4)
            else none
          else if c = 'n' then
            if rest.take 3 = ['u', 'l', 'l'] then some (Json.jnull, rest.drop 3) else none
          else if c = '-' ∨ c.isDigit then parseNumber t
          else none

/-- The members of a JSON object after `{` (at least one member present). -/
def parseObjFields : Nat → List Char → List (List Char × Json) →
    Option (Json × List Char)
  | 0, _, _ => none
  | fuel + 1, s, acc =>
      match s.dropWhile jsonIsWs with
      | [] => none
      | c :: rest =>
          if c = '"' then
            match parseStringBody rest with
            | none => none
            | some (key, rem) =>
                match rem.dropWhile jsonIsWs with
                | [] => none
                | c2 :: rem2 =>
                    if c2 = ':' then
                      match parseValue fuel rem2 with
                      | none => none
                      | some (v, rem3) =>
                          match rem3.dropWhile jsonIsWs with
                          | [] => none
                          | c3 :: rem4 =>
                              if c3 = ',' then
                                parseObjFields fuel rem4 (acc ++ [(key, v)])
                              else if c3 = rbraceChar then
                                some (Json.jobj (acc ++ [(key, v)]), rem4)
                              else none
                    else none
          else none

/-- The items of a JSON array after `[` (at least one item present). -/
def parseArrItems : Nat → List Char → List Json → Option (Json × List Char)
  | 0, _, _ => none
  | fuel + 1, s, acc =>
      match parseValue fuel s with
      | none => none
      | some (v, rem) =>
          match rem.dropWhile jsonIsWs with
          | [] => none
          | c :: rem2 =>
              if c = ',' then parseArrItems fuel rem2 (acc ++ [v])
              else if c = ']' then some (Json.jarr (acc ++ [v]), rem2)
              else none

end

/-- Python `json.loads`: parse one value and require only whitespace after
it (`Extra data` otherwise). -/
def loads (s : List Char) : Option Json :=
  match parseValue (s.length + 1) s with
  | some (v, rest) => if (rest.dropWhile jsonIsWs).isEmpty then some v else none
  | none => none

/-- Scanner of `re.sub(r'\x60\x60\x60json\s*', '', response)`: delete every
occurrence of "\x60\x60\x60json" together with the whitespace run following
it.  Fuel-based so that the function reduces computationally; the wrapper
supplies enough fuel (one unit per character plus one). -/
def stripFenceJsonAux : Nat → List Char → List Char
  | 0, s => s
  | _ + 1, [] => []
  | fuel + 1, c :: rest =>
      if c = backtickChar ∧
          rest.take 6 = [backtickChar, backtickChar, 'j', 's', 'o', 'n'] then
        stripFenceJsonAux fuel ((rest.drop 6).dropWhile pyIsSpace)
      else c :: stripFenceJsonAux fuel rest

/-- `re.sub(r'\x60\x60\x60json\s*', '', response)`. -/
def stripFenceJson (s : List Char) : List Char :=
  stripFenceJsonAux (s.length + 1) s

/-- The fuel does not matter as long as it exceeds the input length. -/
theorem stripFenceJsonAux_stable :
    ∀ (fuel fuel' : Nat) (s : List Char), s.length < fuel → s.length < fuel' →
      stripFenceJsonAux fuel s = stripFenceJsonAux fuel' s := by
  intro fuel
  induction fuel with
  | zero => intro fuel' s h; omega
  | succ f ih =>
      intro fuel' s h h'
      match fuel', s with
      | 0, s => omega
      | f' + 1, [] => rfl
      | f' + 1, c :: rest =>
          simp only [stripFenceJsonAux]
          simp only [List.length_cons] at h h'
          by_cases hc : c = backtickChar ∧
              rest.take 6 = [backtickChar, backtickChar, 'j', 's', 'o', 'n']
          · rw [if_pos hc, if_pos hc]
            have hlen : ((rest.drop 6).dropWhile pyIsSpace).length ≤ rest.length := by
              have h1 : ((rest.drop 6).dropWhile pyIsSpace).length ≤ (rest.drop 6).length :=
                (List.dropWhile_sublist (p := pyIsSpace)).length_le
              have h2 : (rest.drop 6).length ≤ rest.length := by
                rw [List.length_drop]
                omega
              omega
            exact ih f' _ (by omega) (by omega)
          · rw [if_neg hc, if_neg hc]
            rw [ih f' rest (by omega) (by omega)]

/-- `re.sub(r'```\s*$', '', response)`: delete the leftmost "```" that is
followed only by whitespace up to the end of the string (with everything
after it). -/
def stripTrailingFence : List Char → List Char
  | [] => []
  | c :: rest =>
      if c = backtickChar ∧ rest.take 2 = [backtickChar, backtickChar] ∧
          (rest.drop 2).all pyIsSpace then []
      else c :: stripTrailingFence rest

/-- Python `str.strip()`. -/
def pyStripChars (s : List Char) : List Char :=
  ((s.dropWhile pyIsSpace).reverse.dropWhile pyIsSpace).reverse

/-- The control characters removed by `re.sub(r'[\x00-\x1f\x7f-\x9f]', '')`. -/
def isCtrl (c : Char) : Bool :=
  c.toNat ≤ 31 ∨ (127 ≤ c.toNat ∧ c.toNat ≤ 159)

/-- Remove the control characters that break JSON parsing. -/
def stripCtrl (s : List Char) : List Char := s.filter (fun c => ¬ isCtrl c)

/-- `re.search(r'\{.*\}', response, re.DOTALL)`: the span from the first `{`
to the last `}` after it, if any. -/
def extractBraceSpan (s : List Char) : Option (List Char) :=
  match s.dropWhile (fun c => c ≠ lbraceChar) with
  | [] => none
  | c :: u =>
      let w := (u.reverse.dropWhile (fun ch => ch ≠ rbraceChar)).reverse
      if w.isEmpty then none else some (c :: w)

/-- The two failure shapes of `parse_json_response`: the fallback parse
itself raising `json.JSONDecodeError`, or no brace span being found
(`ValueError` carrying the cleaned text truncated to 500 characters). -/
inductive ParseErr where
  | jsonDecodeError : ParseErr
  | valueError (truncated : List Char) : ParseErr

/-- The cleaning pipeline at the head of `parse_json_response`: strip fence
markers, strip the trailing fence, `strip()`, then remove control
characters. -/
def cleanResponse (response : List Char) : List Char :=
  stripCtrl (pyStripChars (stripTrailingFence (stripFenceJson response)))

/-- `LLMClient.parse_json_response`: clean, strict-parse, and on failure
parse the first-`{`-to-last-`}` span (control characters stripped again);
if both attempts fail, raise. -/
def parse_json_response (response : List Char) : Except ParseErr Json :=
  let r := cleanResponse response
  match loads r with
  | some v => Except.ok v
  | none =>
      match extractBraceSpan r with
      | some span =>
          match loads (stripCtrl span) with
          | some v => Except.ok v
          | none => Except.error ParseErr.jsonDecodeError
      | none => Except.error (ParseErr.valueError (r.take 500))

/-- One-step unfolding of the fence scanner (definitional). -/
theorem sfjAux_step (fuel : Nat) (c : Char) (rest : List Char) :
    stripFenceJsonAux (fuel + 1) (c :: rest) =
      if c = backtickChar ∧
          rest.take 6 = [backtickChar, backtickChar, 'j', 's', 'o', 'n'] then
        stripFenceJsonAux fuel ((rest.drop 6).dropWhile pyIsSpace)
      else c :: stripFenceJsonAux fuel rest := rfl

/-- Head character not opening a fence: the scan keeps it. -/
theorem sfj_cons_neg (c : Char) (rest : List Char)
    (h : ¬ (c = backtickChar ∧
      rest.take 6 = [backtickChar, backtickChar, 'j', 's', 'o', 'n'])) :
    stripFenceJson (c :: rest) = c :: stripFenceJson rest := by
  show stripFenceJsonAux ((c :: rest).length + 1) (c :: rest) = _
  rw [show (c :: rest).length + 1 = (rest.length + 1) + 1 by simp]
  rw [sfjAux_step, if_neg h]
  rfl

/-- A fence marker at the head is deleted together with the following
whitespace run. -/
theorem sfj_fence (x : List Char) :
    stripFenceJson ([backtickChar, backtickChar, backtickChar, 'j', 's', 'o', 'n'] ++ x)
      = stripFenceJson (x.dropWhile pyIsSpace) := by
  show stripFenceJsonAux _ _ = _
  rw [show ([backtickChar, backtickChar, backtickChar, 'j', 's', 'o', 'n'] ++ x).length + 1
      = (x.length + 7) + 1 by simp]
  rw [show ([backtickChar, backtickChar, backtickChar, 'j', 's', 'o', 'n'] ++ x)
      = backtickChar :: ([backtickChar, backtickChar, 'j', 's', 'o', 'n'] ++ x) from rfl]
  rw [sfjAux_step, if_pos ⟨rfl, rfl⟩]
  rw [show ([backtickChar, backtickChar, 'j', 's', 'o', 'n'] ++ x).drop 6 = x from rfl]
  apply stripFenceJsonAux_stable
  · have h1 : (x.dropWhile pyIsSpace).length ≤ x.length :=
      (List.dropWhile_sublist (p := pyIsSpace)).length_le
    omega
  · omega

/-- The scan passes over backtick-free text unchanged. -/
theorem sfj_append (a t : List Char) (ha : ∀ c ∈ a, c ≠ backtickChar) :
    stripFenceJson (a ++ t) = a ++ stripFenceJson t := by
  induction a with
  | nil => simp
  | cons c a' ih =>
      have hc : c ≠ backtickChar := ha c (by simp)
      have ha' : ∀ c' ∈ a', c' ≠ backtickChar := fun c' hm => ha c' (by simp [hm])
      rw [List.cons_append, sfj_cons_neg c (a' ++ t) (fun hcd => hc hcd.1), ih ha',
        List.cons_append]

/-- One-step unfolding of the trailing-fence scan (definitional). -/
theorem stf_step (c : Char) (rest : List Char) :
    stripTrailingFence (c :: rest) =
      if c = backtickChar ∧ rest.take 2 = [backtickChar, backtickChar] ∧
          (rest.drop 2).all pyIsSpace then []
      else c :: stripTrailingFence rest := rfl

/-- The trailing-fence scan passes over backtick-free text unchanged. -/
theorem stf_append (a t : List Char) (ha : ∀ c ∈ a, c ≠ backtickChar) :
    stripTrailingFence (a ++ t) = a ++ stripTrailingFence t := by
  induction a with
  | nil => simp
  | cons c a' ih =>
      have hc : c ≠ backtickChar := ha c (by simp)
      have ha' : ∀ c' ∈ a', c' ≠ backtickChar := fun c' hm => ha c' (by simp [hm])
      rw [List.cons_append, stf_step, if_neg (fun hcd => hc hcd.1), ih ha',
        List.cons_append]

/-- The closing-fence region (which no longer matches an opening fence) is
left unchanged by the fence scanner. -/
theorem sfj_closing (p₂ : List Char) (hp₂ : ∀ c ∈ p₂, c ≠ backtickChar) :
    stripFenceJson (['\n', backtickChar, backtickChar, backtickChar, '\n'] ++ p₂)
      = ['\n', backtickChar, backtickChar, backtickChar, '\n'] ++ p₂ := by
  have h0 : (['\n', backtickChar, backtickChar, backtickChar, '\n'] ++ p₂)
      = '\n' :: (backtickChar :: (backtickChar :: (backtickChar :: ('\n' :: p₂)))) := rfl
  rw [h0]
  rw [sfj_cons_neg '\n' _ (fun h => absurd h.1 (by decide))]
  rw [sfj_cons_neg backtickChar (backtickChar :: backtickChar :: '\n' :: p₂) (by
    rintro ⟨-, h⟩
    rw [show (backtickChar :: backtickChar :: '\n' :: p₂).take 6
        = backtickChar :: backtickChar :: '\n' :: (p₂.take 3) from rfl] at h
    injection h with h1 h
    injection h with h2 h
    injection h with h3 h
    exact absurd h3 (by decide))]
  rw [sfj_cons_neg backtickChar (backtickChar :: '\n' :: p₂) (by
    rintro ⟨-, h⟩
    rw [show (backtickChar :: '\n' :: p₂).take 6
        = backtickChar :: '\n' :: (p₂.take 4) from rfl] at h
    injection h with h1 h
    injection h with h2 h
    exact absurd h2 (by decide))]
  rw [sfj_cons_neg backtickChar ('\n' :: p₂) (by
    rintro ⟨-, h⟩
    rw [show ('\n' :: p₂).take 6 = '\n' :: (p₂.take 5) from rfl] at h
    injection h with h1 h
    exact absurd h1 (by decide))]
  rw [sfj_cons_neg '\n' _ (fun h => absurd h.1 (by decide))]
  rw [show p₂ = p₂ ++ [] by simp, sfj_append p₂ [] hp₂]
  simp [stripFenceJson, stripFenceJsonAux]

/-- The closing-fence region is left unchanged by the trailing-fence scan as
long as the trailing prose contains a non-whitespace character. -/
theorem stf_closing (p₂ : List Char) (hp₂ : ∀ c ∈ p₂, c ≠ backtickChar)
    (hw : ∃ c ∈ p₂, pyIsSpace c = false) :
    stripTrailingFence (['\n', backtickChar, backtickChar, backtickChar, '\n'] ++ p₂)
      = ['\n', backtickChar, backtickChar, backtickChar, '\n'] ++ p₂ := by
  obtain ⟨c₀, hc₀m, hc₀⟩ := hw
  have h0 : (['\n', backtickChar, backtickChar, backtickChar, '\n'] ++ p₂)
      = '\n' :: (backtickChar :: (backtickChar :: (backtickChar :: ('\n' :: p₂)))) := rfl
  rw [h0]
  rw [stf_step, if_neg (fun h => absurd h.1 (by decide))]
  rw [stf_step, if_neg (by
    rintro ⟨-, -, hall⟩
    rw [show ((backtickChar :: backtickChar :: '\n' :: p₂).drop 2) = '\n' :: p₂ from rfl] at hall
    rw [List.all_eq_true] at hall
    have := hall c₀ (by simp [hc₀m])
    rw [hc₀] at this
    cases this)]
  rw [stf_step, if_neg (by
    rintro ⟨-, h2, -⟩
    rw [show ((backtickChar :: '\n' :: p₂).take 2) = [backtickChar, '\n'] from rfl] at h2
    injection h2 with h1 h
    injection h with h2' h
    exact absurd h2' (by decide))]
  rw [stf_step, if_neg (by
    rintro ⟨-, h2, -⟩
    rw [show (('\n' :: p₂).take 2) = '\n' :: (p₂.take 1) from rfl] at h2
    injection h2 with h1 h
    exact absurd h1 (by decide))]
  rw [stf_step, if_neg (fun h => absurd h.1 (by decide))]
  rw [show p₂ = p₂ ++ [] by simp, stf_append p₂ [] hp₂]
  simp [stripTrailingFence]

/-- A well-formed JSON object text wrapped in markdown fences and surrounded
by stray prose, as produced by an LLM. -/
def fenceWrap (p₁ j p₂ : List Char) : List Char :=
  p₁ ++ ([backtickChar, backtickChar, backtickChar, 'j', 's', 'o', 'n', '\n']
    ++ (j ++ (['\n', backtickChar, backtickChar, backtickChar, '\n'] ++ p₂)))

/-- Both fence-stripping passes on the wrapped text delete exactly the
opening fence marker (with its following newline) and keep everything else:
the closing fence stays because trailing prose follows it. -/
theorem fence_scans (p₁ body p₂ : List Char)
    (hp₁ : ∀ c ∈ p₁, c ≠ backtickChar)
    (hj : ∀ c ∈ lbraceChar :: body, c ≠ backtickChar)
    (hp₂ : ∀ c ∈ p₂, c ≠ backtickChar)
    (hw : ∃ c ∈ p₂, pyIsSpace c = false) :
    stripTrailingFence (stripFenceJson
        (fenceWrap p₁ (lbraceChar :: body) p₂))
      = p₁ ++ ((lbraceChar :: body)
          ++ (['\n', backtickChar, backtickChar, backtickChar, '\n'] ++ p₂)) := by
  unfold fenceWrap
  rw [sfj_append p₁ _ hp₁]
  rw [show [backtickChar, backtickChar, backtickChar, 'j', 's', 'o', 'n', '\n']
        ++ ((lbraceChar :: body)
          ++ (['\n', backtickChar, backtickChar, backtickChar, '\n'] ++ p₂))
      = [backtickChar, backtickChar, backtickChar, 'j', 's', 'o', 'n']
        ++ ('\n' :: ((lbraceChar :: body)
          ++ (['\n', backtickChar, backtickChar, backtickChar, '\n'] ++ p₂))) from rfl]
  rw [sfj_fence]
  rw [show ('\n' :: ((lbraceChar :: body)
        ++ (['\n', backtickChar, backtickChar, backtickChar, '\n'] ++ p₂))).dropWhile pyIsSpace
      = (lbraceChar :: body)
        ++ (['\n', backtickChar, backtickChar, backtickChar, '\n'] ++ p₂) from by
    rw [List.dropWhile_cons, if_pos (by decide), List.cons_append, List.dropWhile_cons,
      if_neg (by decide)]]
  rw [sfj_append (lbraceChar :: body) _ hj, sfj_closing p₂ hp₂]
  rw [stf_append p₁ _ hp₁, stf_append (lbraceChar :: body) _ hj, stf_closing p₂ hp₂ hw]

/-- Dropping from the reversed concatenation stops inside the suffix when the
suffix does not vanish. -/
theorem dropWhile_rev_append (p : Char → Bool) (a b : List Char)
    (hne : b.reverse.dropWhile p ≠ []) :
    ((a ++ b).reverse.dropWhile p) = b.reverse.dropWhile p ++ a.reverse := by
  rw [List.reverse_append, List.dropWhile_append, if_neg]
  simp [List.isEmpty_iff, hne]

/-- `strip()` on the scanned text removes leading whitespace of the leading
prose and trailing whitespace of the trailing prose, and nothing else. -/
theorem pyStrip_decomp (p₁ body p₂ : List Char)
    (hw : ∃ c ∈ p₂, pyIsSpace c = false) :
    pyStripChars (p₁ ++ ((lbraceChar :: body)
        ++ (['\n', backtickChar, backtickChar, backtickChar, '\n'] ++ p₂)))
      = (p₁.dropWhile pyIsSpace) ++ ((lbraceChar :: body)
          ++ (['\n', backtickChar, backtickChar, backtickChar, '\n']
            ++ (p₂.reverse.dropWhile pyIsSpace).reverse)) := by
  unfold pyStripChars
  have h1 : (p₁ ++ ((lbraceChar :: body)
        ++ (['\n', backtickChar, backtickChar, backtickChar, '\n'] ++ p₂))).dropWhile pyIsSpace
      = (p₁.dropWhile pyIsSpace) ++ ((lbraceChar :: body)
        ++ (['\n', backtickChar, backtickChar, backtickChar, '\n'] ++ p₂)) := by
    rw [List.dropWhile_append]
    split_ifs with h
    · rw [List.isEmpty_iff] at h
      rw [h, List.nil_append, List.cons_append, List.dropWhile_cons, if_neg (by decide),
        List.cons_append]
    · rfl
  rw [h1]
  have hne : p₂.reverse.dropWhile pyIsSpace ≠ [] := by
    intro hnil
    obtain ⟨c₀, hm, hws⟩ := hw
    have hall := List.dropWhile_eq_nil_iff.mp hnil c₀ (by simp [hm])
    rw [hws] at hall
    cases hall
  have hassoc : (p₁.dropWhile pyIsSpace) ++ ((lbraceChar :: body)
        ++ (['\n', backtickChar, backtickChar, backtickChar, '\n'] ++ p₂))
      = ((p₁.dropWhile pyIsSpace) ++ ((lbraceChar :: body)
        ++ ['\n', backtickChar, backtickChar, backtickChar, '\n'])) ++ p₂ := by
    simp [List.append_assoc]
  rw [hassoc, dropWhile_rev_append pyIsSpace _ p₂ hne]
  rw [List.reverse_append]
  simp [List.append_assoc]

/-- Dropping passes over a prefix all of whose characters satisfy the
predicate. -/
theorem dropWhile_append_all (p : Char → Bool) (a t : List Char)
    (h : ∀ c ∈ a, p c = true) :
    (a ++ t).dropWhile p = t.dropWhile p := by
  rw [List.dropWhile_append, if_pos]
  simp only [List.isEmpty_iff]
  exact List.dropWhile_eq_nil_iff.mpr h

/-- Control-character removal distributes over concatenation. -/
theorem stripCtrl_append (a b : List Char) :
    stripCtrl (a ++ b) = stripCtrl a ++ stripCtrl b := by
  unfold stripCtrl
  exact List.filter_append _ _

/-- Control-character removal fixes control-free text. -/
theorem stripCtrl_eq_self (l : List Char) (h : ∀ c ∈ l, isCtrl c = false) :
    stripCtrl l = l := by
  unfold stripCtrl
  rw [List.filter_eq_self]
  intro a ha
  simp [h a ha]

/-- The greedy first-`{`-to-last-`}` search recovers exactly the embedded
object text when the surrounding text is brace-free. -/
theorem extract_decomp (p₁L body' p₂T : List Char)
    (hp₁ : ∀ c ∈ p₁L, c ≠ lbraceChar) (hp₂ : ∀ c ∈ p₂T, c ≠ rbraceChar) :
    extractBraceSpan (p₁L ++ ((lbraceChar :: (body' ++ [rbraceChar]))
        ++ ([backtickChar, backtickChar, backtickChar] ++ p₂T)))
      = some (lbraceChar :: (body' ++ [rbraceChar])) := by
  have h1 : (p₁L ++ ((lbraceChar :: (body' ++ [rbraceChar]))
        ++ ([backtickChar, backtickChar, backtickChar] ++ p₂T))).dropWhile
          (fun c => c ≠ lbraceChar)
      = lbraceChar :: ((body' ++ [rbraceChar])
          ++ ([backtickChar, backtickChar, backtickChar] ++ p₂T)) := by
    rw [dropWhile_append_all _ p₁L _ (by
      intro c hc
      simp [hp₁ c hc])]
    rw [List.cons_append, List.dropWhile_cons, if_neg (by simp)]
  have h2 : (((body' ++ [rbraceChar])
        ++ ([backtickChar, backtickChar, backtickChar] ++ p₂T)).reverse.dropWhile
          (fun ch => ch ≠ rbraceChar)).reverse
      = body' ++ [rbraceChar] := by
    rw [List.reverse_append]
    rw [dropWhile_append_all _ _ _ (by
      intro c hc
      rw [List.mem_reverse] at hc
      have hc' : c ≠ rbraceChar := by
        rcases List.mem_append.mp hc with hbt | hp
        · simp at hbt
          subst hbt
          decide
        · exact hp₂ c hp
      simp [hc'])]
    rw [show (body' ++ [rbraceChar]).reverse = rbraceChar :: body'.reverse by simp]
    rw [List.dropWhile_cons, if_neg (by simp)]
    simp
  unfold extractBraceSpan
  rw [h1]
  simp only [h2]
  rw [if_neg (by simp)]

/-- C4: JSON extraction round-trips.  (a) For every well-formed JSON object
text `{body'}` (control- and backtick-free, as an LLM emits on one line)
wrapped in markdown fence markers and surrounded by stray prose (brace-,
backtick- and control-free, with some non-whitespace trailing), if the
strict parse of the cleaned wrapped text fails, `parse_json_response`
returns exactly the strict parse of the embedded object text: the algorithm
strips fence markers and control characters, attempts a strict parse, and on
failure parses the first-`{`-to-last-`}` span (stripping control characters
again).  (b) When both attempts fail and no brace span exists, it raises an
error carrying the cleaned text truncated to 500 characters. -/
theorem c4_extraction_roundtrip :
    (∀ (p₁ p₂ body' : List Char) (v : Json),
      (∀ c ∈ p₁, c ≠ backtickChar ∧ c ≠ lbraceChar ∧ c ≠ rbraceChar ∧ isCtrl c = false) →
      (∀ c ∈ p₂, c ≠ backtickChar ∧ c ≠ lbraceChar ∧ c ≠ rbraceChar ∧ isCtrl c = false) →
      (∃ c ∈ p₂, pyIsSpace c = false) →
      (∀ c ∈ lbraceChar :: (body' ++ [rbraceChar]),
        c ≠ backtickChar ∧ isCtrl c = false) →
      loads (lbraceChar :: (body' ++ [rbraceChar])) = some v →
      loads (cleanResponse
        (fenceWrap p₁ (lbraceChar :: (body' ++ [rbraceChar])) p₂)) = none →
      parse_json_response (fenceWrap p₁ (lbraceChar :: (body' ++ [rbraceChar])) p₂)
        = Except.ok v)
    ∧ (∀ s : List Char,
        loads (cleanResponse s) = none →
        extractBraceSpan (cleanResponse s) = none →
        parse_json_response s
          = Except.error (ParseErr.valueError ((cleanResponse s).take 500))) := by
  constructor
  · intro p₁ p₂ body' v hp₁ hp₂ hw hj hload hstrict
    have hp₁t : ∀ c ∈ p₁, c ≠ backtickChar := fun c hc => (hp₁ c hc).1
    have hp₂t : ∀ c ∈ p₂, c ≠ backtickChar := fun c hc => (hp₂ c hc).1
    have hjt : ∀ c ∈ lbraceChar :: (body' ++ [rbraceChar]), c ≠ backtickChar :=
      fun c hc => (hj c hc).1
    have hmem₁ : ∀ c ∈ p₁.dropWhile pyIsSpace, c ∈ p₁ :=
      fun c hc => (List.dropWhile_sublist _).mem hc
    have hmem₂ : ∀ c ∈ (p₂.reverse.dropWhile pyIsSpace).reverse, c ∈ p₂ := by
      intro c hc
      rw [List.mem_reverse] at hc
      exact List.mem_reverse.mp ((List.dropWhile_sublist _).mem hc)
    have hclean : cleanResponse (fenceWrap p₁ (lbraceChar :: (body' ++ [rbraceChar])) p₂)
        = (p₁.dropWhile pyIsSpace) ++ ((lbraceChar :: (body' ++ [rbraceChar]))
          ++ ([backtickChar, backtickChar, backtickChar]
            ++ (p₂.reverse.dropWhile pyIsSpace).reverse)) := by
      unfold cleanResponse
      rw [fence_scans p₁ (body' ++ [rbraceChar]) p₂ hp₁t hjt hp₂t hw]
      rw [pyStrip_decomp p₁ (body' ++ [rbraceChar]) p₂ hw]
      rw [stripCtrl_append, stripCtrl_append, stripCtrl_append]
      rw [stripCtrl_eq_self _ (fun c hc => (hp₁ c (hmem₁ c hc)).2.2.2)]
      rw [stripCtrl_eq_self _ (fun c hc => (hj c hc).2)]
      rw [stripCtrl_eq_self _ (fun c hc => (hp₂ c (hmem₂ c hc)).2.2.2)]
      rw [show stripCtrl ['\n', backtickChar, backtickChar, backtickChar, '\n']
          = [backtickChar, backtickChar, backtickChar] from rfl]
    have hstrict' : loads ((p₁.dropWhile pyIsSpace) ++ ((lbraceChar :: (body' ++ [rbraceChar]))
        ++ ([backtickChar, backtickChar, backtickChar]
          ++ (p₂.reverse.dropWhile pyIsSpace).reverse))) = none := by
      rw [← hclean]
      exact hstrict
    have hextract := extract_decomp (p₁.dropWhile pyIsSpace) body'
      ((p₂.reverse.dropWhile pyIsSpace).reverse)
      (fun c hc => (hp₁ c (hmem₁ c hc)).2.1)
      (fun c hc => (hp₂ c (hmem₂ c hc)).2.2.1)
    have hspan : stripCtrl (lbraceChar :: (body' ++ [rbraceChar]))
        = lbraceChar :: (body' ++ [rbraceChar]) :=
      stripCtrl_eq_self _ (fun c hc => (hj c hc).2)
    simp only [parse_json_response, hclean, hstrict', hextract, hspan, hload]
  · intro s h1 h2
    simp only [parse_json_response, h1, h2]

/-- C4 witness: the round-trip theorem applied to a concrete fenced response
with prose on both sides, and the error case applied to a brace-free text. -/
theorem c4_extraction_roundtrip_witness :
    (loads (lbraceChar :: ("\"alignment_score\": 7, \"valid\": true".data ++ [rbraceChar]))
        = some (Json.jobj [("alignment_score".data, Json.jnum 7),
            ("valid".data, Json.jbool true)])
      ∧ loads (cleanResponse (fenceWrap "Sure, here is the analysis: ".data
          (lbraceChar :: ("\"alignment_score\": 7, \"valid\": true".data ++ [rbraceChar]))
          "Hope this helps!".data)) = none
      ∧ parse_json_response (fenceWrap "Sure, here is the analysis: ".data
          (lbraceChar :: ("\"alignment_score\": 7, \"valid\": true".data ++ [rbraceChar]))
          "Hope this helps!".data)
        = Except.ok (Json.jobj [("alignment_score".data, Json.jnum 7),
            ("valid".data, Json.jbool true)]))
    ∧ parse_json_response "no json here".data
        = Except.error (ParseErr.valueError
            ((cleanResponse "no json here".data).take 500)) := by
  refine ⟨⟨rfl, rfl, ?_⟩, ?_⟩
  · exact c4_extraction_roundtrip.1 "Sure, here is the analysis: ".data
      "Hope this helps!".data "\"alignment_score\": 7, \"valid\": true".data
      (Json.jobj [("alignment_score".data, Json.jnum 7), ("valid".data, Json.jbool true)])
      (by decide) (by decide) (by decide) (by decide) rfl rfl
  · exact c4_extraction_roundtrip.2 "no json here".data rfl rfl
